import Mathlib

/- Batteries marks the `Rat` field operations irreducible, which stops
`decide` from evaluating concrete executions of the embedded code; this
file relies on such evaluation for its witnesses and counterexamples,
so restore the default reducibility. -/
set_option allowUnsafeReducibility true in
attribute [semireducible] Rat.add Rat.sub Rat.mul Rat.inv Rat.div Rat.neg

/-!
# Wallet-ledger service: shallow embedding and verification

This file embeds the transactional mutation engine of the wallet-ledger
service (Node/Express + PostgreSQL) and proves/refutes the frozen claims
about it.

Embedding conventions:

* UUIDs are opaque identifiers with a linear order.  Canonical lowercase
  UUID strings compare identically under JavaScript string comparison and
  PostgreSQL `uuid` byte order, so we model them as `Nat`.
* `NUMERIC(20,6)` column values are exact rationals (`ℚ`); coercion of a
  JavaScript number into such a column rounds to 6 fractional digits,
  ties away from zero (`round6`).
* JavaScript numbers are IEEE-754 binary64 values.  `parseFloat` of a
  numeric string and JS arithmetic round to the nearest binary64 value,
  ties to even.  `toF64` models this rounding for the normal range
  (no overflow/subnormals, which is exact for every value a
  `NUMERIC(20,6)` column can hold).
* The database is a record of lists of rows; SQL statements become pure
  functions on it, and a raised error becomes `Except.error`.
-/

/-! ## Numeric model: binary64 rounding and NUMERIC(20,6) coercion -/

/-- Round to the nearest integer, ties to even (IEEE-754 default). -/
def roundTiesEven (q : ℚ) : ℤ :=
  let f := ⌊q⌋
  let r := q - (f : ℚ)
  if r < 1/2 then f
  else if 1/2 < r then f + 1
  else if f % 2 = 0 then f else f + 1

/-- Round to the nearest integer, ties away from zero (PostgreSQL
`NUMERIC` rounding). -/
def roundHalfAway (q : ℚ) : ℤ :=
  if q < 0 then -⌊-q + 1/2⌋ else ⌊q + 1/2⌋

/-- Fuel-driven floor of the base-2 logarithm of a positive rational.
The fuel (2200) covers every exponent reachable from a `NUMERIC(20,6)`
value or a finite binary64, so on all inputs this file evaluates it on
it equals ⌊log₂ q⌋. -/
def floorLog2Aux : Nat → ℚ → ℤ → ℤ
  | 0, _, acc => acc
  | fuel+1, q, acc =>
    if q < 1 then floorLog2Aux fuel (q * 2) (acc - 1)
    else if 2 ≤ q then floorLog2Aux fuel (q / 2) (acc + 1)
    else acc

def floorLog2 (q : ℚ) : ℤ := floorLog2Aux 2200 q 0

/-- The binary64 value nearest to `q` (round to nearest, ties to even),
for `q` in the normal range.  Models JavaScript `parseFloat` applied to
the decimal text of a `NUMERIC` value, and the rounding step of JS
arithmetic. -/
def toF64 (q : ℚ) : ℚ :=
  if q = 0 then 0
  else
    let a := |q|
    let e := floorLog2 a
    let s : ℚ := 2 ^ (52 - e)
    (if q < 0 then -1 else 1) * (roundTiesEven (a * s) : ℚ) / s

/-- JavaScript binary64 subtraction of two binary64 values. -/
def fsub (a b : ℚ) : ℚ := toF64 (a - b)

/-- JavaScript binary64 addition of two binary64 values. -/
def fadd (a b : ℚ) : ℚ := toF64 (a + b)

/-- Coercion of a JavaScript number into a `NUMERIC(20,6)` column:
round to 6 fractional digits, ties away from zero. -/
def round6 (q : ℚ) : ℚ := (roundHalfAway (q * 1000000) : ℚ) / 1000000

/-! ## Data model (migrations 001–006)

Only the columns the embedded code reads or writes are modelled; unused
columns (timestamps, owner fields, asset-type metadata) are omitted. -/

/-- A row of `wallets` (migration 002_create_wallets, concatenated
into src/db/migrations/001_create_asset_types.sql: balance is
`NUMERIC(20,6)` with `CHECK (balance >= 0)`). -/
structure Wallet where
  id : Nat
  asset_type_id : Nat
  balance : ℚ
  is_active : Bool
deriving DecidableEq, Repr

/-- `entry_type_enum` of migration 004. -/
inductive EntryType
  | debit
  | credit
deriving DecidableEq, Repr

/-- A row of `ledger_entries` (migration 004). -/
structure LedgerEntry where
  transaction_id : Nat
  wallet_id : Nat
  entry_type : EntryType
  amount : ℚ
  balance_before : ℚ
  balance_after : ℚ
deriving DecidableEq, Repr

/-- `transaction_type_enum` of migration 003. -/
inductive TxType
  | topup
  | bonus
  | spend
deriving DecidableEq, Repr

/-- `transaction_status_enum` of migration 003. -/
inductive TxStatus
  | pending
  | completed
  | failed
deriving DecidableEq, Repr

/-- A row of `transactions` (migration 003).  `metadata` (a JSONB bag
built by `JSON.stringify`) is modelled as an association list. -/
structure TxnRow where
  id : Nat
  type : TxType
  status : TxStatus
  user_wallet_id : Nat
  system_wallet_id : Nat
  amount : ℚ
  reference_id : Option String
  idempotency_key : Option String
  description : Option String
  metadata : List (String × String)
deriving DecidableEq, Repr

/-- The mutable database state: the three tables the flow engine
touches, plus the id the next `INSERT INTO transactions` will assign
(modelling `gen_random_uuid()` as a counter). -/
structure DBState where
  wallets : List Wallet
  transactions : List TxnRow
  ledger_entries : List LedgerEntry
  nextTxId : Nat
deriving DecidableEq, Repr

/-! ## Error taxonomy (src/errors/AppError.js, plus PG error codes) -/

/-- PostgreSQL errors the service can surface: `23505`
(unique_violation) and `23514` (check_violation). -/
inductive DBErr
  | uniqueViolation
  | checkViolation
deriving DecidableEq, Repr

/-- Faults raised inside a flow: the `AppError` subclasses thrown by
`transaction.service.js`, datastore constraint errors, and a
non-operational JS fault (`internal`). -/
inductive AppErr
  | notFound (resource : String)
  | conflict (message : String)
  | insufficientFunds (available required : ℚ)
  | dbError (e : DBErr)
  | internal (message : String)
deriving DecidableEq, Repr

deriving instance DecidableEq for Except

/-! ## Formatted response view (`formatTransaction`) -/

/-- The object `formatTransaction` returns.  `amount` is
`parseFloat(row.amount)`; `ledgerEntries` is `row.ledger_entries`,
which is only present on rows produced by the join in
`getTransaction` — otherwise it is `undefined` (`none`). -/
structure FormattedTx where
  id : Nat
  type : TxType
  status : TxStatus
  userWalletId : Nat
  systemWalletId : Nat
  amount : ℚ
  referenceId : Option String
  idempotencyKey : Option String
  description : Option String
  metadata : List (String × String)
  ledgerEntries : Option (List LedgerEntry)
deriving DecidableEq, Repr

/-- `formatTransaction` (transaction.service.js, lines 329–345).
`entries` is the `ledger_entries` field carried by the row, `none`
when the row came straight from the `transactions` table. -/
def formatTransaction (row : TxnRow) (entries : Option (List LedgerEntry)) : FormattedTx :=
  { id := row.id
    type := row.type
    status := row.status
    userWalletId := row.user_wallet_id
    systemWalletId := row.system_wallet_id
    amount := toF64 row.amount
    referenceId := row.reference_id
    idempotencyKey := row.idempotency_key
    description := row.description
    metadata := row.metadata
    ledgerEntries := entries }

/-! ## Internal helpers of transaction.service.js -/

/-- `sortIds` (lines 269–271): order two wallet ids ascending. -/
def sortIds (a b : Nat) : Nat × Nat := if a < b then (a, b) else (b, a)

/-- The row set returned by the lock query of `lockWallets`
(lines 256–263): `SELECT * FROM wallets WHERE id IN ($1, $2)
ORDER BY id FOR UPDATE`.  The `ORDER BY id` makes the output the
ascending-by-id ordering of the matching rows, whatever the table
order. -/
def lockQuery (db : DBState) (id1 id2 : Nat) : List Wallet :=
  List.insertionSort (fun a b => a.id ≤ b.id)
    (db.wallets.filter (fun w => w.id = id1 ∨ w.id = id2))

/-- `lockWallets` (lines 256–263): run the lock query and raise
`NotFound` when fewer than two rows come back. -/
def lockWallets (db : DBState) (id1 id2 : Nat) : Except AppErr (List Wallet) :=
  if (lockQuery db id1 id2).length < 2 then .error (.notFound "One or both wallets")
  else .ok (lockQuery db id1 id2)

/-- `UPDATE wallets SET balance = balance + delta WHERE id = wid`
(transaction.service.js lines 282–285 and 301–304), subject to the
wallets table's `CONSTRAINT wallets_balance_non_negative CHECK
(balance >= 0)` on the `NUMERIC(20,6)` balance column (migration
002_create_wallets, concatenated into
src/db/migrations/001_create_asset_types.sql, lines 27–42); a
violating update raises PG 23514 (check_violation). -/
def updateWalletBalance (db : DBState) (wid : Nat) (delta : ℚ) : Except AppErr DBState :=
  if (db.wallets.filter (fun w => w.id = wid)).all (fun w => 0 ≤ w.balance + delta) then
    .ok { db with
          wallets := db.wallets.map
            (fun w => if w.id = wid then { w with balance := w.balance + delta } else w) }
  else .error (.dbError .checkViolation)

/-- `INSERT INTO ledger_entries ...` with the
`CHECK (amount > 0)` constraint of migration 004.  The JS values
`amount`, `balanceBefore`, `balanceAfter` are coerced into
`NUMERIC(20,6)` columns by `round6`. -/
def insertLedgerEntry (db : DBState) (txId wid : Nat) (ty : EntryType)
    (amount balanceBefore balanceAfter : ℚ) : Except AppErr DBState :=
  if round6 amount > 0 then
    .ok { db with
          ledger_entries := db.ledger_entries ++
            [{ transaction_id := txId
               wallet_id := wid
               entry_type := ty
               amount := round6 amount
               balance_before := round6 balanceBefore
               balance_after := round6 balanceAfter }] }
  else .error (.dbError .checkViolation)

/-- `debitWallet` (lines 277–292): `balanceBefore` is
`parseFloat(wallet.balance)`, `balanceAfter` the JS float difference;
the UPDATE subtracts the amount exactly in SQL. -/
def debitWallet (db : DBState) (w : Wallet) (amount : ℚ) (txId : Nat) :
    Except AppErr DBState :=
  let balanceBefore := toF64 w.balance
  let balanceAfter := fsub balanceBefore amount
  match updateWalletBalance db w.id (-(round6 amount)) with
  | .error e => .error e
  | .ok db1 => insertLedgerEntry db1 txId w.id .debit amount balanceBefore balanceAfter

/-- `creditWallet` (lines 297–311). -/
def creditWallet (db : DBState) (w : Wallet) (amount : ℚ) (txId : Nat) :
    Except AppErr DBState :=
  let balanceBefore := toF64 w.balance
  let balanceAfter := fadd balanceBefore amount
  match updateWalletBalance db w.id (round6 amount) with
  | .error e => .error e
  | .ok db1 => insertLedgerEntry db1 txId w.id .credit amount balanceBefore balanceAfter

/-- `SELECT * FROM transactions WHERE idempotency_key = $1`, first row. -/
def findByKey (db : DBState) (key : String) : Option TxnRow :=
  db.transactions.find? (fun t => t.idempotency_key = some key)

/-- `checkDuplicate` (lines 317–327): return the first row whose
`idempotency_key` matches, formatted, or `none`. -/
def checkDuplicate (db : DBState) (key : String) : Option FormattedTx :=
  match findByKey db key with
  | some t => some (formatTransaction t none)
  | none => none

/-- `INSERT INTO transactions ... RETURNING *`, with the constraints of
migration 003: `CHECK (amount > 0)`, `CHECK (user_wallet_id <>
system_wallet_id)`, and `idempotency_key UNIQUE` (a second committed
row with the same key raises `23505`). -/
def insertTransaction (db : DBState) (ty : TxType) (userW sysW : Nat) (amount : ℚ)
    (refId key desc : Option String) (meta : List (String × String)) :
    Except AppErr (DBState × TxnRow) :=
  if (match key with
      | some k => db.transactions.any (fun t => t.idempotency_key = some k)
      | none => false) then
    .error (.dbError .uniqueViolation)
  else if ¬ round6 amount > 0 then .error (.dbError .checkViolation)
  else if userW = sysW then .error (.dbError .checkViolation)
  else
    let row : TxnRow :=
      { id := db.nextTxId
        type := ty
        status := .pending
        user_wallet_id := userW
        system_wallet_id := sysW
        amount := round6 amount
        reference_id := refId
        idempotency_key := key
        description := desc
        metadata := meta }
    .ok ({ db with
           transactions := db.transactions ++ [row]
           nextTxId := db.nextTxId + 1 }, row)

/-- `UPDATE transactions SET status = 'completed' WHERE id = $1
RETURNING *`: the updated table and the returned row (if any). -/
def completeTransaction (db : DBState) (txId : Nat) : DBState × Option TxnRow :=
  let db1 := { db with
               transactions := db.transactions.map
                 (fun t => if t.id = txId then { t with status := .completed } else t) }
  (db1, db1.transactions.find? (fun t => t.id = txId))

/-- The tail every flow shares once its transaction row exists
(source lines 87–100, 151–160, 212–222): debit the source, credit the
target, promote the row to `completed`, format it.  The destructuring
`rows[0]` of the RETURNING would be a TypeError if the row vanished;
that unreachable case is `internal`. -/
def settle (db : DBState) (source target : Wallet) (amount : ℚ) (txn : TxnRow) :
    Except AppErr (DBState × FormattedTx) :=
  match debitWallet db source amount txn.id with
  | .error e => .error e
  | .ok db2 =>
    match creditWallet db2 target amount txn.id with
    | .error e => .error e
    | .ok db3 =>
      match completeTransaction db3 txn.id with
      | (_, none) => .error (.internal "completed transaction row missing")
      | (db4, some completed) => .ok (db4, formatTransaction completed none)

/-! ## The transaction runner (src/config/db.js, `withTransaction`) -/

/-- Transaction-control statements issued on a connection. -/
inductive Ctl
  | beginTx
  | commitTx
  | rollbackTx
deriving DecidableEq, Repr

/-- What one `withTransaction` run leaves behind: the committed
database state, the propagated result, the control statements issued,
and whether the connection was released. -/
structure RunOutcome (α : Type) where
  db : DBState
  result : Except AppErr α
  ctl : List Ctl
  released : Bool

/-- `withTransaction` (db.js lines 44–57): BEGIN, run `fn`, COMMIT on
return or ROLLBACK on a raised fault (a rolled-back transaction leaves
the database as it was), rethrow the fault, release the connection on
both paths (the `finally`). -/
def withTransaction (db : DBState) (fn : DBState → Except AppErr (DBState × α)) :
    RunOutcome α :=
  match fn db with
  | .ok (db1, a) => ⟨db1, .ok a, [.beginTx, .commitTx], true⟩
  | .error e => ⟨db, .error e, [.beginTx, .rollbackTx], true⟩

/-! ## The three flows

Each flow body takes two database snapshots: `dbc` is the snapshot the
in-transaction duplicate pre-check reads, `db` the snapshot every later
statement reads.  Under READ COMMITTED these can differ: the pre-check
runs before the `FOR UPDATE` wait, and a concurrent writer can commit
while this transaction is blocked on the row locks.  A serial (race-free)
execution passes the same state twice, which is what `topup`, `bonus`
and `spend` below do. -/

/-- Request body + idempotency key for `topup`. -/
structure TopupArgs where
  walletId : Nat
  systemWalletId : Nat
  amount : ℚ
  referenceId : String
  description : Option String
  metadata : List (String × String)
  idempotencyKey : Option String
deriving DecidableEq, Repr

/-- Request body + idempotency key for `bonus`. -/
structure BonusArgs where
  walletId : Nat
  systemWalletId : Nat
  amount : ℚ
  reason : String
  description : Option String
  metadata : List (String × String)
  idempotencyKey : Option String
deriving DecidableEq, Repr

/-- Request body + idempotency key for `spend`. -/
structure SpendArgs where
  walletId : Nat
  systemWalletId : Nat
  amount : ℚ
  serviceId : String
  description : Option String
  metadata : List (String × String)
  idempotencyKey : Option String
deriving DecidableEq, Repr

/-- `topup` after its duplicate pre-check (service lines 55–101). -/
def topupMain (a : TopupArgs) (db : DBState) : Except AppErr (DBState × FormattedTx) :=
  match lockWallets db (sortIds a.systemWalletId a.walletId).1
      (sortIds a.systemWalletId a.walletId).2 with
  | .error e => .error e
  | .ok wallets =>
    match wallets.find? (fun w => w.id = a.systemWalletId),
        wallets.find? (fun w => w.id = a.walletId) with
    | none, _ => .error (.notFound "System wallet")
    | some _, none => .error (.notFound "User wallet")
    | some systemWallet, some userWallet =>
      if systemWallet.is_active = false then .error (.conflict "System wallet is inactive")
      else if userWallet.is_active = false then .error (.conflict "User wallet is inactive")
      else if systemWallet.asset_type_id ≠ userWallet.asset_type_id then
        .error (.conflict "Wallet asset types do not match")
      else if toF64 systemWallet.balance < a.amount then
        .error (.insufficientFunds systemWallet.balance a.amount)
      else
        match insertTransaction db .topup a.walletId a.systemWalletId a.amount
            (some a.referenceId) a.idempotencyKey a.description a.metadata with
        | .error e => .error e
        | .ok (db1, txn) => settle db1 systemWallet userWallet a.amount txn

/-- The body `topup` runs inside `withTransaction` (service lines
39–101).  Its duplicate pre-check is inlined in the source as two
queries: select ids by key, then re-select the first row by id. -/
def topupBody (dbc : DBState) (a : TopupArgs) (db : DBState) :
    Except AppErr (DBState × FormattedTx) :=
  match a.idempotencyKey with
  | some key =>
    match (dbc.transactions.filter (fun t => t.idempotency_key = some key)) with
    | [] => topupMain a db
    | e0 :: _ =>
      match dbc.transactions.filter (fun t => t.id = e0.id) with
      | [] => .error (.internal "transaction row vanished")
      | t0 :: _ => .ok (db, formatTransaction t0 none)
  | none => topupMain a db

/-- `topup` (service lines 30–102). -/
def topup (db : DBState) (a : TopupArgs) : RunOutcome FormattedTx :=
  withTransaction db (topupBody db a)

/-- `bonus` after its duplicate pre-check (service lines 125–161). -/
def bonusMain (a : BonusArgs) (db : DBState) : Except AppErr (DBState × FormattedTx) :=
  match lockWallets db (sortIds a.systemWalletId a.walletId).1
      (sortIds a.systemWalletId a.walletId).2 with
  | .error e => .error e
  | .ok wallets =>
    match wallets.find? (fun w => w.id = a.systemWalletId),
        wallets.find? (fun w => w.id = a.walletId) with
    | none, _ => .error (.notFound "System wallet")
    | some _, none => .error (.notFound "User wallet")
    | some systemWallet, some userWallet =>
      if systemWallet.is_active = false then .error (.conflict "Bonus pool wallet is inactive")
      else if userWallet.is_active = false then .error (.conflict "User wallet is inactive")
      else if systemWallet.asset_type_id ≠ userWallet.asset_type_id then
        .error (.conflict "Wallet asset types do not match")
      else if toF64 systemWallet.balance < a.amount then
        .error (.insufficientFunds systemWallet.balance a.amount)
      else
        match insertTransaction db .bonus a.walletId a.systemWalletId a.amount
            none a.idempotencyKey
            (some (a.description.getD ("Bonus: " ++ a.reason)))
            (("reason", a.reason) :: a.metadata) with
        | .error e => .error e
        | .ok (db1, txn) => settle db1 systemWallet userWallet a.amount txn

/-- The body `bonus` runs inside `withTransaction` (service lines
119–161), using the `checkDuplicate` helper. -/
def bonusBody (dbc : DBState) (a : BonusArgs) (db : DBState) :
    Except AppErr (DBState × FormattedTx) :=
  match a.idempotencyKey with
  | some key =>
    match checkDuplicate dbc key with
    | some dup => .ok (db, dup)
    | none => bonusMain a db
  | none => bonusMain a db

/-- `bonus` (service lines 110–162). -/
def bonus (db : DBState) (a : BonusArgs) : RunOutcome FormattedTx :=
  withTransaction db (bonusBody db a)

/-- `spend` after its duplicate pre-check (service lines 185–223).
The user wallet is the debit side; its insufficiency fault carries the
float-parsed balance. -/
def spendMain (a : SpendArgs) (db : DBState) : Except AppErr (DBState × FormattedTx) :=
  match lockWallets db (sortIds a.walletId a.systemWalletId).1
      (sortIds a.walletId a.systemWalletId).2 with
  | .error e => .error e
  | .ok wallets =>
    match wallets.find? (fun w => w.id = a.walletId),
        wallets.find? (fun w => w.id = a.systemWalletId) with
    | none, _ => .error (.notFound "User wallet")
    | some _, none => .error (.notFound "Revenue wallet")
    | some userWallet, some systemWallet =>
      if userWallet.is_active = false then .error (.conflict "User wallet is inactive")
      else if systemWallet.is_active = false then .error (.conflict "Revenue wallet is inactive")
      else if userWallet.asset_type_id ≠ systemWallet.asset_type_id then
        .error (.conflict "Wallet asset types do not match")
      else if toF64 userWallet.balance < a.amount then
        .error (.insufficientFunds (toF64 userWallet.balance) a.amount)
      else
        match insertTransaction db .spend a.walletId a.systemWalletId a.amount
            none a.idempotencyKey
            (some (a.description.getD ("Purchase: " ++ a.serviceId)))
            (("serviceId", a.serviceId) :: a.metadata) with
        | .error e => .error e
        | .ok (db1, txn) => settle db1 userWallet systemWallet a.amount txn

/-- The body `spend` runs inside `withTransaction` (service lines
179–223). -/
def spendBody (dbc : DBState) (a : SpendArgs) (db : DBState) :
    Except AppErr (DBState × FormattedTx) :=
  match a.idempotencyKey with
  | some key =>
    match checkDuplicate dbc key with
    | some dup => .ok (db, dup)
    | none => spendMain a db
  | none => spendMain a db

/-- `spend` (service lines 170–224). -/
def spend (db : DBState) (a : SpendArgs) : RunOutcome FormattedTx :=
  withTransaction db (spendBody db a)

/-! ## A uniform view of the three flows -/

/-- One argument record covering all three request bodies, so claims
can quantify over the flow kind. -/
structure FlowArgs where
  walletId : Nat
  systemWalletId : Nat
  amount : ℚ
  referenceId : String
  reason : String
  serviceId : String
  description : Option String
  metadata : List (String × String)
  idempotencyKey : Option String
deriving DecidableEq, Repr

def FlowArgs.toTopup (a : FlowArgs) : TopupArgs :=
  ⟨a.walletId, a.systemWalletId, a.amount, a.referenceId, a.description,
   a.metadata, a.idempotencyKey⟩

def FlowArgs.toBonus (a : FlowArgs) : BonusArgs :=
  ⟨a.walletId, a.systemWalletId, a.amount, a.reason, a.description,
   a.metadata, a.idempotencyKey⟩

def FlowArgs.toSpend (a : FlowArgs) : SpendArgs :=
  ⟨a.walletId, a.systemWalletId, a.amount, a.serviceId, a.description,
   a.metadata, a.idempotencyKey⟩

/-- Run one flow of the given kind. -/
def runFlow : TxType → DBState → FlowArgs → RunOutcome FormattedTx
  | .topup, db, a => topup db a.toTopup
  | .bonus, db, a => bonus db a.toBonus
  | .spend, db, a => spend db a.toSpend

/-- The body of one flow of the given kind, exposed for the runner
claims. -/
def flowBody : TxType → DBState → FlowArgs → DBState → Except AppErr (DBState × FormattedTx)
  | .topup, dbc, a => topupBody dbc a.toTopup
  | .bonus, dbc, a => bonusBody dbc a.toBonus
  | .spend, dbc, a => spendBody dbc a.toSpend

/-- The wallet a flow debits: the system wallet for topup and bonus,
the user wallet for spend. -/
def debitIdOf : TxType → FlowArgs → Nat
  | .spend, a => a.walletId
  | _, a => a.systemWalletId

/-- The wallet a flow credits. -/
def creditIdOf : TxType → FlowArgs → Nat
  | .spend, a => a.systemWalletId
  | _, a => a.walletId

/-! ## Error boundary (src/middleware/errorHandler.js) -/

/-- The `(status, code)` pair the global error handler serialises for a
fault: operational `AppError`s keep their own status and code; PG
`23514` becomes 422 CONSTRAINT_VIOLATION, PG `23505` becomes 409
CONFLICT, anything else 500 INTERNAL_ERROR. -/
def errorResponse : AppErr → Nat × String
  | .notFound _ => (404, "NOT_FOUND")
  | .conflict _ => (409, "CONFLICT")
  | .insufficientFunds _ _ => (422, "INSUFFICIENT_FUNDS")
  | .dbError .checkViolation => (422, "CONSTRAINT_VIOLATION")
  | .dbError .uniqueViolation => (409, "CONFLICT")
  | .internal _ => (500, "INTERNAL_ERROR")

/-- A mutation endpoint's JSON body: the success envelope with the
formatted transaction, or the failure envelope with an error code. -/
inductive ApiBody
  | success (data : FormattedTx)
  | failure (code : String)
deriving DecidableEq, Repr

/-- A transaction controller (transaction.controller.js): run the flow,
answer 201 with the success envelope, or hand the fault to the error
handler. -/
def flowEndpoint (k : TxType) (db : DBState) (a : FlowArgs) : DBState × Nat × ApiBody :=
  match (runFlow k db a).result with
  | .ok ftx => ((runFlow k db a).db, 201, .success ftx)
  | .error e => ((runFlow k db a).db, (errorResponse e).1, .failure (errorResponse e).2)

/-! ## Idempotency store and request boundary
(src/middleware/idempotency.js) -/

/-- A row of `idempotency_keys` (migration 005). The response body is
kept abstract. -/
structure IdemRecord (β : Type) where
  key : String
  request_path : String
  response_status : Nat
  response_body : β
  expires_at : ℚ

/-- The `idempotency_keys` table. -/
structure IdemStore (β : Type) where
  records : List (IdemRecord β)

/-- The lookup query (idempotency.js lines 97–102): stored status and
body for `(key, path)` when `expires_at > NOW()`. -/
def idemLookup (s : IdemStore β) (now : ℚ) (key path : String) : Option (Nat × β) :=
  (s.records.find? (fun r => r.key = key ∧ r.request_path = path ∧ now < r.expires_at)).map
    (fun r => (r.response_status, r.response_body))

/-- The store insert of the wrapped `res.json` (lines 82–87):
`INSERT ... ON CONFLICT (key, request_path) DO NOTHING` with
`expires_at = NOW() + ttl`. -/
def idemInsert (s : IdemStore β) (now ttl : ℚ) (key path : String) (status : Nat)
    (body : β) : IdemStore β :=
  if s.records.any (fun r => r.key = key ∧ r.request_path = path) then s
  else ⟨s.records ++ [⟨key, path, status, body, now + ttl⟩]⟩

/-- What the idempotency boundary leaves behind for one request. -/
structure BoundaryOutcome (β : Type) where
  store : IdemStore β
  status : Nat
  body : β
  replayedHeader : Bool
  handlerRan : Bool

/-- The idempotency middleware around one mutation request
(idempotency.js lines 67–114).  `handler` is the response the rest of
the pipeline would produce.  Without a key the middleware is a no-op
pass-through (the `res.json` wrap is installed only when a key is
present).  On a fresh usable record the cached status and body are
returned, the `X-Idempotency-Replayed` header is set, the handler never
runs, and `responseCaptured` stops the wrap from re-storing.  On a miss
the handler runs and its response is stored only when its status is
below 500. -/
def idempotencyBoundary (s : IdemStore β) (now ttl : ℚ) (key? : Option String)
    (path : String) (handler : Nat × β) : BoundaryOutcome β :=
  match key? with
  | none => ⟨s, handler.1, handler.2, false, true⟩
  | some key =>
    match idemLookup s now key path with
    | some (cachedStatus, cachedBody) => ⟨s, cachedStatus, cachedBody, true, false⟩
    | none =>
      if handler.1 < 500 then
        ⟨idemInsert s now ttl key path handler.1 handler.2, handler.1, handler.2, false, true⟩
      else ⟨s, handler.1, handler.2, false, true⟩

/-! ## Well-formedness predicates used as hypotheses -/

/-- Freshness of the id the next transaction insert will receive
(the embedding of `gen_random_uuid()` never colliding). -/
def FreshId (db : DBState) : Prop :=
  (∀ t ∈ db.transactions, t.id ≠ db.nextTxId) ∧
  (∀ e ∈ db.ledger_entries, e.transaction_id ≠ db.nextTxId)

instance (db : DBState) : Decidable (FreshId db) := by
  unfold FreshId; infer_instance

/-- Primary-key uniqueness of transaction ids. -/
def TxIdsNodup (db : DBState) : Prop := (db.transactions.map TxnRow.id).Nodup

instance (db : DBState) : Decidable (TxIdsNodup db) := by
  unfold TxIdsNodup; infer_instance

/-- Primary-key uniqueness of wallet ids. -/
def WalletIdsNodup (db : DBState) : Prop := (db.wallets.map Wallet.id).Nodup

instance (db : DBState) : Decidable (WalletIdsNodup db) := by
  unfold WalletIdsNodup; infer_instance

/-! ## The runner and the flows: basic shape lemmas -/

lemma runFlow_eq_withTransaction (k : TxType) (db : DBState) (a : FlowArgs) :
    runFlow k db a = withTransaction db (flowBody k db a) := by
  cases k <;> rfl

/-- The commit-or-rollback contract of `withTransaction`, for an
arbitrary body: the connection is always released; a raised fault is
rethrown after ROLLBACK with the database unchanged; a normal return is
COMMITted and the body's value propagated. -/
lemma withTransaction_spec {α : Type} (db : DBState)
    (fn : DBState → Except AppErr (DBState × α)) :
    (withTransaction db fn).released = true ∧
    (∀ e, (withTransaction db fn).result = .error e →
      (withTransaction db fn).db = db ∧ fn db = .error e ∧
      (withTransaction db fn).ctl = [Ctl.beginTx, Ctl.rollbackTx]) ∧
    (∀ v, (withTransaction db fn).result = .ok v →
      fn db = .ok ((withTransaction db fn).db, v) ∧
      (withTransaction db fn).ctl = [Ctl.beginTx, Ctl.commitTx]) := by
  unfold withTransaction
  cases h : fn db with
  | ok p =>
    cases p with
    | mk d v =>
      refine ⟨rfl, ?_, ?_⟩
      · intro e he
        simp at he
      · intro v0 hv0
        simp at hv0
        subst hv0
        exact ⟨rfl, rfl⟩
  | error e =>
    refine ⟨rfl, ?_, ?_⟩
    · intro e2 he2
      simp at he2
      subst he2
      exact ⟨rfl, rfl, rfl⟩
    · intro v hv
      simp at hv

/-- Claim C2: for every flow execution in which any step raises a fault,
the transaction runner issues ROLLBACK and rethrows, so no wallet
balance changes and no transaction row or ledger entry persists; on a
normal return it issues COMMIT and propagates the inner result; and it
releases the connection on every exit path.  (A rolled-back transaction
leaves the database exactly as it began, so the error conjunct states
the database is unchanged.)  The final conjunct states the same
contract for an arbitrary body, as `withTransaction` assumes nothing
about `fn`. -/
theorem transaction_runner_atomic (k : TxType) (db : DBState) (a : FlowArgs) :
    ((runFlow k db a).released = true) ∧
    (∀ e, (runFlow k db a).result = .error e →
      (runFlow k db a).db = db ∧ (runFlow k db a).ctl = [Ctl.beginTx, Ctl.rollbackTx]) ∧
    (∀ ftx, (runFlow k db a).result = .ok ftx →
      (runFlow k db a).ctl = [Ctl.beginTx, Ctl.commitTx] ∧
      flowBody k db a db = .ok ((runFlow k db a).db, ftx)) ∧
    (∀ (fn : DBState → Except AppErr (DBState × FormattedTx)),
      (withTransaction db fn).released = true ∧
      (∀ e, (withTransaction db fn).result = .error e →
        (withTransaction db fn).db = db ∧ fn db = .error e ∧
        (withTransaction db fn).ctl = [Ctl.beginTx, Ctl.rollbackTx]) ∧
      (∀ v, (withTransaction db fn).result = .ok v →
        fn db = .ok ((withTransaction db fn).db, v) ∧
        (withTransaction db fn).ctl = [Ctl.beginTx, Ctl.commitTx])) := by
  have h := withTransaction_spec db (flowBody k db a)
  rw [runFlow_eq_withTransaction]
  refine ⟨h.1, fun e he => ⟨(h.2.1 e he).1, (h.2.1 e he).2.2⟩, ?_, fun fn => withTransaction_spec db fn⟩
  intro ftx hok
  exact ⟨(h.2.2 ftx hok).2, (h.2.2 ftx hok).1⟩

/-- A seed state used by several witnesses: a treasury wallet (id 1)
and a user wallet (id 2) of the same asset type. -/
def seedDB : DBState :=
  { wallets := [⟨1, 7, 1000000, true⟩, ⟨2, 7, 500, true⟩]
    transactions := []
    ledger_entries := []
    nextTxId := 10 }

/-- A state with no wallets at all. -/
def emptyDB : DBState :=
  { wallets := [], transactions := [], ledger_entries := [], nextTxId := 10 }

/-- Baseline topup request (amount 100, key k1) in `FlowArgs` form. -/
def seedArgs : FlowArgs :=
  { walletId := 2, systemWalletId := 1, amount := 100, referenceId := "stripe-111"
    reason := "referral", serviceId := "svc-1", description := none
    metadata := [], idempotencyKey := some "k1" }

/-- Witness for the runner claim: on a state with no wallets the topup
flow faults, and the runner leaves the database untouched and rolls
back. -/
theorem transaction_runner_atomic_witness :
    (runFlow .topup emptyDB seedArgs).result = .error (.notFound "One or both wallets") ∧
    (runFlow .topup emptyDB seedArgs).db = emptyDB ∧
    (runFlow .topup emptyDB seedArgs).ctl = [Ctl.beginTx, Ctl.rollbackTx] := by
  have h := (transaction_runner_atomic .topup emptyDB seedArgs).2.1
    (.notFound "One or both wallets") (by decide)
  exact ⟨by decide, h.1, h.2⟩

/-! ## Duplicate pre-check: list lemmas and behavior -/

lemma find?_filter_head {α : Type} {p : α → Bool} {l : List α} {t : α}
    (h : l.find? p = some t) : ∃ rest, l.filter p = t :: rest := by
  induction l with
  | nil => simp at h
  | cons x xs ih =>
    by_cases hx : p x
    · rw [List.find?_cons_of_pos _ hx] at h
      injection h with h
      subst h
      exact ⟨xs.filter p, by rw [List.filter_cons_of_pos hx]⟩
    · rw [List.find?_cons_of_neg _ hx] at h
      obtain ⟨rest, hr⟩ := ih h
      exact ⟨rest, by rw [List.filter_cons_of_neg hx, hr]⟩

lemma filter_id_eq_singleton {l : List TxnRow} {t : TxnRow}
    (ht : t ∈ l) (hnd : (l.map TxnRow.id).Nodup) :
    l.filter (fun x => x.id = t.id) = [t] := by
  induction l with
  | nil => cases ht
  | cons x xs ih =>
    rw [List.map_cons, List.nodup_cons] at hnd
    rcases List.mem_cons.mp ht with rfl | hmem
    · rw [List.filter_cons_of_pos (by simp)]
      have hnil : xs.filter (fun y => y.id = t.id) = [] := by
        apply List.filter_eq_nil_iff.mpr
        intro y hy hyt
        exact hnd.1 (by
          simp only [decide_eq_true_eq] at hyt
          rw [← hyt]
          exact List.mem_map_of_mem TxnRow.id hy)
      rw [hnil]
    · have hxt : ¬ (x.id = t.id) := by
        intro heq
        exact hnd.1 (heq ▸ List.mem_map_of_mem TxnRow.id hmem)
      rw [List.filter_cons_of_neg (by simpa using hxt)]
      exact ih hmem hnd.2

lemma mem_of_findByKey {db : DBState} {key : String} {t : TxnRow}
    (h : findByKey db key = some t) :
    t ∈ db.transactions ∧ t.idempotency_key = some key := by
  refine ⟨List.mem_of_find?_eq_some h, ?_⟩
  have := List.find?_some h
  simpa using this

/-- The inlined duplicate pre-check of `topup` (two queries) returns
the first row matching the key, formatted, leaving the state alone. -/
lemma topupBody_hit (dbc db : DBState) (a : TopupArgs) (key : String) (t : TxnRow)
    (hkey : a.idempotencyKey = some key) (hfind : findByKey dbc key = some t)
    (hnd : TxIdsNodup dbc) :
    topupBody dbc a db = .ok (db, formatTransaction t none) := by
  have hmem := (mem_of_findByKey hfind).1
  have hsing := filter_id_eq_singleton hmem hnd
  unfold findByKey at hfind
  obtain ⟨rest, hfil⟩ := find?_filter_head hfind
  unfold topupBody
  rw [hkey]
  simp only [hfil, hsing]

/-- `checkDuplicate` behavior on a key hit. -/
lemma checkDuplicate_hit {dbc : DBState} {key : String} {t : TxnRow}
    (hfind : findByKey dbc key = some t) :
    checkDuplicate dbc key = some (formatTransaction t none) := by
  unfold checkDuplicate
  rw [hfind]

lemma bonusBody_hit (dbc db : DBState) (a : BonusArgs) (key : String) (t : TxnRow)
    (hkey : a.idempotencyKey = some key) (hfind : findByKey dbc key = some t) :
    bonusBody dbc a db = .ok (db, formatTransaction t none) := by
  unfold bonusBody
  rw [hkey]
  simp only [checkDuplicate_hit hfind]

lemma spendBody_hit (dbc db : DBState) (a : SpendArgs) (key : String) (t : TxnRow)
    (hkey : a.idempotencyKey = some key) (hfind : findByKey dbc key = some t) :
    spendBody dbc a db = .ok (db, formatTransaction t none) := by
  unfold spendBody
  rw [hkey]
  simp only [checkDuplicate_hit hfind]

lemma flowBody_hit (k : TxType) (dbc db : DBState) (a : FlowArgs) (key : String) (t : TxnRow)
    (hkey : a.idempotencyKey = some key) (hfind : findByKey dbc key = some t)
    (hnd : TxIdsNodup dbc) :
    flowBody k dbc a db = .ok (db, formatTransaction t none) := by
  cases k with
  | topup => exact topupBody_hit dbc db a.toTopup key t hkey hfind hnd
  | bonus => exact bonusBody_hit dbc db a.toBonus key t hkey hfind
  | spend => exact spendBody_hit dbc db a.toSpend key t hkey hfind

/-- Claim C10: the in-transaction duplicate check matches on
`idempotency_key` alone.  A request to any flow whose key equals the
key of any existing transaction row — `t` here is arbitrary: it may be
of a different flow kind, different wallets, a different amount, or
still `pending` — returns that prior row formatted as a successful
(201) response, and performs no validation, locking or writes (the
state is returned unchanged and the transaction commits empty). -/
theorem duplicate_check_matches_key_alone (k : TxType) (db : DBState) (a : FlowArgs)
    (key : String) (t : TxnRow)
    (hkey : a.idempotencyKey = some key)
    (hfind : findByKey db key = some t)
    (hnd : TxIdsNodup db) :
    (runFlow k db a).result = .ok (formatTransaction t none) ∧
    (runFlow k db a).db = db ∧
    (runFlow k db a).ctl = [Ctl.beginTx, Ctl.commitTx] ∧
    flowEndpoint k db a = (db, 201, .success (formatTransaction t none)) := by
  have hbody := flowBody_hit k db db a key t hkey hfind hnd
  have hrf := runFlow_eq_withTransaction k db a
  have hout : runFlow k db a =
      ⟨db, .ok (formatTransaction t none), [Ctl.beginTx, Ctl.commitTx], true⟩ := by
    rw [hrf]
    unfold withTransaction
    rw [hbody]
  refine ⟨by rw [hout], by rw [hout], by rw [hout], ?_⟩
  unfold flowEndpoint
  rw [hout]

/-- A prior `bonus` row, still `pending`, with key k9. -/
def staleRow : TxnRow :=
  { id := 3, type := .bonus, status := .pending, user_wallet_id := 2,
    system_wallet_id := 1, amount := 50, reference_id := none,
    idempotency_key := some "k9", description := none, metadata := [] }

/-- A state holding only `staleRow` — note: no wallets at all. -/
def staleDB : DBState :=
  { wallets := [], transactions := [staleRow], ledger_entries := [], nextTxId := 11 }

/-- A `spend` request re-using key k9 against wallets that do not exist. -/
def staleArgs : FlowArgs :=
  { walletId := 42, systemWalletId := 43, amount := 999, referenceId := "r"
    reason := "x", serviceId := "svc", description := none
    metadata := [], idempotencyKey := some "k9" }

/-- Witness: a `spend` whose key matches a pending `bonus` row is
answered with that row (status still `pending`) as a 201 success,
although its wallets do not even exist — validation never ran. -/
theorem duplicate_check_matches_key_alone_witness :
    (runFlow .spend staleDB staleArgs).result = .ok (formatTransaction staleRow none) ∧
    (runFlow .spend staleDB staleArgs).db = staleDB ∧
    flowEndpoint .spend staleDB staleArgs
      = (staleDB, 201, .success (formatTransaction staleRow none)) ∧
    (formatTransaction staleRow none).status = .pending := by
  have h := duplicate_check_matches_key_alone .spend staleDB staleArgs "k9" staleRow
    (by decide) (by decide) (by decide)
  exact ⟨h.1, h.2.1, h.2.2.2, by decide⟩

/-! ## Success-path characterization of the write operations -/

/-- The ledger entry `debitWallet` inserts, as stored. -/
def debitEntry (w : Wallet) (am : ℚ) (txId : Nat) : LedgerEntry :=
  { transaction_id := txId, wallet_id := w.id, entry_type := .debit
    amount := round6 am, balance_before := round6 (toF64 w.balance)
    balance_after := round6 (fsub (toF64 w.balance) am) }

/-- The ledger entry `creditWallet` inserts, as stored. -/
def creditEntry (w : Wallet) (am : ℚ) (txId : Nat) : LedgerEntry :=
  { transaction_id := txId, wallet_id := w.id, entry_type := .credit
    amount := round6 am, balance_before := round6 (toF64 w.balance)
    balance_after := round6 (fadd (toF64 w.balance) am) }

lemma updateWalletBalance_ok {db : DBState} {wid : Nat} {delta : ℚ} {db1 : DBState}
    (h : updateWalletBalance db wid delta = .ok db1) :
    db1 = { db with wallets := (db.wallets.map
            (fun w => if w.id = wid then { w with balance := w.balance + delta } else w)) } := by
  unfold updateWalletBalance at h
  split at h
  · injection h with h
    exact h.symm
  · simp at h

lemma insertLedgerEntry_ok {db : DBState} {txId wid : Nat} {ty : EntryType}
    {am bb ba : ℚ} {db1 : DBState}
    (h : insertLedgerEntry db txId wid ty am bb ba = .ok db1) :
    round6 am > 0 ∧
    db1 = { db with ledger_entries := db.ledger_entries ++
            [{ transaction_id := txId, wallet_id := wid, entry_type := ty
               amount := round6 am, balance_before := round6 bb
               balance_after := round6 ba }] } := by
  unfold insertLedgerEntry at h
  split at h
  next hpos =>
    injection h with h
    exact ⟨hpos, h.symm⟩
  next hpos => simp at h

lemma debitWallet_ok {db : DBState} {w : Wallet} {am : ℚ} {tx : Nat} {db' : DBState}
    (h : debitWallet db w am tx = .ok db') :
    round6 am > 0 ∧
    db' = { db with
            wallets := (db.wallets.map
              (fun x => if x.id = w.id then { x with balance := x.balance + (-(round6 am)) } else x))
            ledger_entries := db.ledger_entries ++ [debitEntry w am tx] } := by
  unfold debitWallet at h
  split at h
  next e hub => simp at h
  next db1 hub =>
    obtain ⟨hpos, hins⟩ := insertLedgerEntry_ok h
    have hu := updateWalletBalance_ok hub
    subst hu
    subst hins
    exact ⟨hpos, rfl⟩

lemma creditWallet_ok {db : DBState} {w : Wallet} {am : ℚ} {tx : Nat} {db' : DBState}
    (h : creditWallet db w am tx = .ok db') :
    round6 am > 0 ∧
    db' = { db with
            wallets := (db.wallets.map
              (fun x => if x.id = w.id then { x with balance := x.balance + round6 am } else x))
            ledger_entries := db.ledger_entries ++ [creditEntry w am tx] } := by
  unfold creditWallet at h
  split at h
  next e hub => simp at h
  next db1 hub =>
    obtain ⟨hpos, hins⟩ := insertLedgerEntry_ok h
    have hu := updateWalletBalance_ok hub
    subst hu
    subst hins
    exact ⟨hpos, rfl⟩

lemma insertTransaction_ok {db : DBState} {ty : TxType} {u s : Nat} {am : ℚ}
    {r k d : Option String} {m : List (String × String)} {db1 : DBState} {txn : TxnRow}
    (h : insertTransaction db ty u s am r k d m = .ok (db1, txn)) :
    txn = { id := db.nextTxId, type := ty, status := .pending, user_wallet_id := u
            system_wallet_id := s, amount := round6 am, reference_id := r
            idempotency_key := k, description := d, metadata := m } ∧
    db1 = { db with transactions := db.transactions ++ [txn], nextTxId := db.nextTxId + 1 } ∧
    round6 am > 0 ∧ u ≠ s := by
  unfold insertTransaction at h
  split at h
  next hdup => simp at h
  next hdup =>
    split at h
    next hpos => simp at h
    next hpos =>
      split at h
      next heq => simp at h
      next hne =>
        injection h with h
        injection h with h1 h2
        subst h2
        refine ⟨rfl, ?_, by simpa using hpos, hne⟩
        exact h1.symm

lemma completeTransaction_found {db : DBState} {i : Nat} {db4 : DBState} {c : TxnRow}
    (h : completeTransaction db i = (db4, some c)) :
    c.status = .completed ∧ c.id = i ∧
    db4 = { db with transactions := (db.transactions.map
            (fun t => if t.id = i then { t with status := .completed } else t)) } ∧
    ((db.transactions.map
      (fun t => if t.id = i then { t with status := .completed } else t)).find?
        (fun t => t.id = i)) = some c := by
  unfold completeTransaction at h
  injection h with h1 h2
  subst h1
  have hc := List.find?_some h2
  have hmem := List.mem_of_find?_eq_some h2
  simp only [decide_eq_true_eq] at hc
  obtain ⟨t0, ht0, heq⟩ := List.mem_map.mp hmem
  by_cases ht : t0.id = i
  · rw [if_pos ht] at heq
    subst heq
    exact ⟨rfl, ht, rfl, h2⟩
  · rw [if_neg ht] at heq
    subst heq
    exact absurd hc ht

/-- Everything the shared flow tail guarantees when it returns
successfully. -/
lemma settle_ok {db : DBState} {src tgt : Wallet} {am : ℚ} {txn : TxnRow}
    {db' : DBState} {ftx : FormattedTx}
    (h : settle db src tgt am txn = .ok (db', ftx)) :
    round6 am > 0 ∧
    db'.nextTxId = db.nextTxId ∧
    db'.ledger_entries = db.ledger_entries ++ [debitEntry src am txn.id, creditEntry tgt am txn.id] ∧
    db'.transactions = (db.transactions.map
      (fun t => if t.id = txn.id then { t with status := .completed } else t)) ∧
    db'.wallets = ((db.wallets.map
      (fun x => if x.id = src.id then { x with balance := x.balance + (-(round6 am)) } else x)).map
      (fun x => if x.id = tgt.id then { x with balance := x.balance + round6 am } else x)) ∧
    ∃ completed, ftx = formatTransaction completed none ∧
      completed.status = .completed ∧ completed.id = txn.id ∧
      ((db.transactions.map
        (fun t => if t.id = txn.id then { t with status := .completed } else t)).find?
          (fun t => t.id = txn.id)) = some completed := by
  unfold settle at h
  split at h
  next e hdeb => simp at h
  next db2 hdeb =>
    split at h
    next e hcred => simp at h
    next db3 hcred =>
      split at h
      next db4 hcomp => simp at h
      next db4 completed hcomp =>
        injection h with hp
        injection hp with h1 h2
        subst h1
        obtain ⟨hpos, hdb2⟩ := debitWallet_ok hdeb
        obtain ⟨_, hdb3⟩ := creditWallet_ok hcred
        obtain ⟨hst, hid, hdb4, hfound⟩ := completeTransaction_found hcomp
        subst hdb2
        subst hdb3
        subst hdb4
        refine ⟨hpos, rfl, by simp, rfl, rfl, completed, h2.symm, hst, hid, hfound⟩

/-- Inversion of a successful `topupMain`: every validation passed and
the tail ran. -/
lemma topupMain_ok {a : TopupArgs} {db db' : DBState} {ftx : FormattedTx}
    (h : topupMain a db = .ok (db', ftx)) :
    ∃ rows sw uw,
      lockWallets db (sortIds a.systemWalletId a.walletId).1
        (sortIds a.systemWalletId a.walletId).2 = .ok rows ∧
      rows.find? (fun w => w.id = a.systemWalletId) = some sw ∧
      rows.find? (fun w => w.id = a.walletId) = some uw ∧
      sw.is_active = true ∧ uw.is_active = true ∧
      sw.asset_type_id = uw.asset_type_id ∧
      ¬ toF64 sw.balance < a.amount ∧
      ∃ txn db1,
        insertTransaction db .topup a.walletId a.systemWalletId a.amount
          (some a.referenceId) a.idempotencyKey a.description a.metadata = .ok (db1, txn) ∧
        settle db1 sw uw a.amount txn = .ok (db', ftx) := by
  unfold topupMain at h
  split at h
  next e hlock => simp at h
  next rows hlock =>
    split at h
    next hsw huw => simp at h
    next w hsw huw => simp at h
    next sw uw hsw huw =>
      split at h
      · simp at h
      next hact1 =>
        split at h
        · simp at h
        next hact2 =>
          split at h
          · simp at h
          next hasset =>
            split at h
            · simp at h
            next hfunds =>
              split at h
              next e hins => simp at h
              next db1 txn hins =>
                refine ⟨rows, sw, uw, hlock, hsw, huw, ?_, ?_, ?_, hfunds, txn, db1, hins, h⟩
                · simpa using hact1
                · simpa using hact2
                · exact not_ne_iff.mp hasset

/-- Inversion of a successful `bonusMain`. -/
lemma bonusMain_ok {a : BonusArgs} {db db' : DBState} {ftx : FormattedTx}
    (h : bonusMain a db = .ok (db', ftx)) :
    ∃ rows sw uw,
      lockWallets db (sortIds a.systemWalletId a.walletId).1
        (sortIds a.systemWalletId a.walletId).2 = .ok rows ∧
      rows.find? (fun w => w.id = a.systemWalletId) = some sw ∧
      rows.find? (fun w => w.id = a.walletId) = some uw ∧
      sw.is_active = true ∧ uw.is_active = true ∧
      sw.asset_type_id = uw.asset_type_id ∧
      ¬ toF64 sw.balance < a.amount ∧
      ∃ txn db1,
        insertTransaction db .bonus a.walletId a.systemWalletId a.amount
          none a.idempotencyKey (some (a.description.getD ("Bonus: " ++ a.reason)))
          (("reason", a.reason) :: a.metadata) = .ok (db1, txn) ∧
        settle db1 sw uw a.amount txn = .ok (db', ftx) := by
  unfold bonusMain at h
  split at h
  next e hlock => simp at h
  next rows hlock =>
    split at h
    next hsw huw => simp at h
    next w hsw huw => simp at h
    next sw uw hsw huw =>
      split at h
      · simp at h
      next hact1 =>
        split at h
        · simp at h
        next hact2 =>
          split at h
          · simp at h
          next hasset =>
            split at h
            · simp at h
            next hfunds =>
              split at h
              next e hins => simp at h
              next db1 txn hins =>
                refine ⟨rows, sw, uw, hlock, hsw, huw, ?_, ?_, ?_, hfunds, txn, db1, hins, h⟩
                · simpa using hact1
                · simpa using hact2
                · exact not_ne_iff.mp hasset

/-- Inversion of a successful `spendMain`: the user wallet is the
debit side. -/
lemma spendMain_ok {a : SpendArgs} {db db' : DBState} {ftx : FormattedTx}
    (h : spendMain a db = .ok (db', ftx)) :
    ∃ rows uw sw,
      lockWallets db (sortIds a.walletId a.systemWalletId).1
        (sortIds a.walletId a.systemWalletId).2 = .ok rows ∧
      rows.find? (fun w => w.id = a.walletId) = some uw ∧
      rows.find? (fun w => w.id = a.systemWalletId) = some sw ∧
      uw.is_active = true ∧ sw.is_active = true ∧
      uw.asset_type_id = sw.asset_type_id ∧
      ¬ toF64 uw.balance < a.amount ∧
      ∃ txn db1,
        insertTransaction db .spend a.walletId a.systemWalletId a.amount
          none a.idempotencyKey (some (a.description.getD ("Purchase: " ++ a.serviceId)))
          (("serviceId", a.serviceId) :: a.metadata) = .ok (db1, txn) ∧
        settle db1 uw sw a.amount txn = .ok (db', ftx) := by
  unfold spendMain at h
  split at h
  next e hlock => simp at h
  next rows hlock =>
    split at h
    next huw hsw => simp at h
    next w huw hsw => simp at h
    next uw sw huw hsw =>
      split at h
      · simp at h
      next hact1 =>
        split at h
        · simp at h
        next hact2 =>
          split at h
          · simp at h
          next hasset =>
            split at h
            · simp at h
            next hfunds =>
              split at h
              next e hins => simp at h
              next db1 txn hins =>
                refine ⟨rows, uw, sw, hlock, huw, hsw, ?_, ?_, ?_, hfunds, txn, db1, hins, h⟩
                · simpa using hact1
                · simpa using hact2
                · exact not_ne_iff.mp hasset

/-! ## Routing: a fresh request reaches the main body -/

lemma checkDuplicate_miss {dbc : DBState} {key : String}
    (h : findByKey dbc key = none) : checkDuplicate dbc key = none := by
  unfold checkDuplicate
  rw [h]

lemma filter_key_nil {dbc : DBState} {key : String}
    (h : findByKey dbc key = none) :
    dbc.transactions.filter (fun t => t.idempotency_key = some key) = [] := by
  unfold findByKey at h
  exact List.filter_eq_nil_iff.mpr (List.find?_eq_none.mp h)

/-- The main body of each flow, under the uniform argument record. -/
def flowMain : TxType → FlowArgs → DBState → Except AppErr (DBState × FormattedTx)
  | .topup, a => topupMain a.toTopup
  | .bonus, a => bonusMain a.toBonus
  | .spend, a => spendMain a.toSpend

lemma topupBody_miss {dbc : DBState} {a : TopupArgs}
    (h : ∀ key, a.idempotencyKey = some key → findByKey dbc key = none) (db : DBState) :
    topupBody dbc a db = topupMain a db := by
  unfold topupBody
  cases hk : a.idempotencyKey with
  | none => rfl
  | some key => simp only [filter_key_nil (h key hk)]

lemma bonusBody_miss {dbc : DBState} {a : BonusArgs}
    (h : ∀ key, a.idempotencyKey = some key → findByKey dbc key = none) (db : DBState) :
    bonusBody dbc a db = bonusMain a db := by
  unfold bonusBody
  cases hk : a.idempotencyKey with
  | none => rfl
  | some key => simp only [checkDuplicate_miss (h key hk)]

lemma spendBody_miss {dbc : DBState} {a : SpendArgs}
    (h : ∀ key, a.idempotencyKey = some key → findByKey dbc key = none) (db : DBState) :
    spendBody dbc a db = spendMain a db := by
  unfold spendBody
  cases hk : a.idempotencyKey with
  | none => rfl
  | some key => simp only [checkDuplicate_miss (h key hk)]

lemma flowBody_miss {k : TxType} {dbc : DBState} {a : FlowArgs}
    (h : ∀ key, a.idempotencyKey = some key → findByKey dbc key = none) (db : DBState) :
    flowBody k dbc a db = flowMain k a db := by
  cases k with
  | topup => exact topupBody_miss h db
  | bonus => exact bonusBody_miss h db
  | spend => exact spendBody_miss h db

lemma sortIds_comm (a b : Nat) : sortIds a b = sortIds b a := by
  unfold sortIds
  rcases Nat.lt_trichotomy a b with h | h | h
  · rw [if_pos h, if_neg (Nat.lt_asymm h)]
  · subst h
    rfl
  · rw [if_neg (Nat.lt_asymm h), if_pos h]

/-- Unified success inversion for the three main bodies: the wallets
were locked, found, validated, the pending row inserted, and the tail
run, with the debit side given by the flow's policy. -/
lemma flowMain_ok {k : TxType} {a : FlowArgs} {db db' : DBState} {ftx : FormattedTx}
    (h : flowMain k a db = .ok (db', ftx)) :
    ∃ rows src tgt txn db1,
      lockWallets db (sortIds a.systemWalletId a.walletId).1
        (sortIds a.systemWalletId a.walletId).2 = .ok rows ∧
      rows.find? (fun w => w.id = debitIdOf k a) = some src ∧
      rows.find? (fun w => w.id = creditIdOf k a) = some tgt ∧
      src.is_active = true ∧ tgt.is_active = true ∧
      src.asset_type_id = tgt.asset_type_id ∧
      ¬ toF64 src.balance < a.amount ∧
      (∃ r dsc mta, insertTransaction db k a.walletId a.systemWalletId a.amount
        r a.idempotencyKey dsc mta = .ok (db1, txn)) ∧
      settle db1 src tgt a.amount txn = .ok (db', ftx) := by
  cases k with
  | topup =>
    obtain ⟨rows, sw, uw, hlock, hsw, huw, h1, h2, h3, h4, txn, db1, hins, hset⟩ := topupMain_ok h
    exact ⟨rows, sw, uw, txn, db1, hlock, hsw, huw, h1, h2, h3, h4,
      ⟨some a.referenceId, a.description, a.metadata, hins⟩, hset⟩
  | bonus =>
    obtain ⟨rows, sw, uw, hlock, hsw, huw, h1, h2, h3, h4, txn, db1, hins, hset⟩ := bonusMain_ok h
    exact ⟨rows, sw, uw, txn, db1, hlock, hsw, huw, h1, h2, h3, h4,
      ⟨none, some (a.description.getD ("Bonus: " ++ a.reason)),
        ("reason", a.reason) :: a.metadata, hins⟩, hset⟩
  | spend =>
    obtain ⟨rows, uw, sw, hlock, huw, hsw, h1, h2, h3, h4, txn, db1, hins, hset⟩ := spendMain_ok h
    simp only [FlowArgs.toSpend] at hlock
    rw [sortIds_comm a.walletId a.systemWalletId] at hlock
    exact ⟨rows, uw, sw, txn, db1, hlock, huw, hsw, h1, h2, h3, h4,
      ⟨none, some (a.description.getD ("Purchase: " ++ a.serviceId)),
        ("serviceId", a.serviceId) :: a.metadata, hins⟩, hset⟩

/-- A fresh (non-replayed) successful run is a successful run of the
main body, landing in the runner's committed state. -/
lemma runFlow_ok_fresh {k : TxType} {db : DBState} {a : FlowArgs} {ftx : FormattedTx}
    (hmiss : ∀ key, a.idempotencyKey = some key → findByKey db key = none)
    (hok : (runFlow k db a).result = .ok ftx) :
    flowMain k a db = .ok ((runFlow k db a).db, ftx) := by
  have h := (withTransaction_spec db (flowBody k db a)).2.2 ftx
    (by rw [← runFlow_eq_withTransaction]; exact hok)
  rw [flowBody_miss hmiss db] at h
  rw [runFlow_eq_withTransaction]
  exact h.1

/-! ## Double-entry shape of a committed flow transaction -/

lemma lockWallets_rows {db : DBState} {i1 i2 : Nat} {rows : List Wallet}
    (h : lockWallets db i1 i2 = .ok rows) :
    rows = lockQuery db i1 i2 ∧ 2 ≤ rows.length := by
  unfold lockWallets at h
  split at h
  next hlen => simp at h
  next hlen =>
    injection h with h
    subst h
    exact ⟨rfl, Nat.le_of_not_lt hlen⟩

lemma mem_lockQuery {db : DBState} {i1 i2 : Nat} {w : Wallet}
    (h : w ∈ lockQuery db i1 i2) : w ∈ db.wallets ∧ (w.id = i1 ∨ w.id = i2) := by
  unfold lockQuery at h
  have hperm := List.perm_insertionSort (fun a b : Wallet => a.id ≤ b.id)
    (db.wallets.filter (fun w => w.id = i1 ∨ w.id = i2))
  rw [hperm.mem_iff] at h
  exact ⟨List.mem_of_mem_filter h, by simpa using List.of_mem_filter h⟩

lemma map_complete_fresh {l : List TxnRow} {i : Nat} (h : ∀ t ∈ l, t.id ≠ i) :
    l.map (fun t => if t.id = i then { t with status := TxStatus.completed } else t) = l := by
  induction l with
  | nil => rfl
  | cons x xs ih =>
    rw [List.map_cons, if_neg (h x (List.mem_cons_self x xs)),
      ih (fun t ht => h t (List.mem_cons_of_mem x ht))]

lemma filter_entries_fresh {l : List LedgerEntry} {i : Nat}
    (h : ∀ e ∈ l, e.transaction_id ≠ i) :
    l.filter (fun e => e.transaction_id = i) = [] :=
  List.filter_eq_nil_iff.mpr (fun e he => by simpa using h e he)

/-- Claim C1 (as amended): a committed fresh flow transaction T has
exactly two ledger entries referencing it — a debit on the flow's
source wallet and a credit on its target — both with amount `T.amount`,
so the sum of the two signed amounts is zero.  The recorded snapshots
are float-computed, as the source does: `balance_before` is the
binary64 parse of the stored balance and `balance_after` the binary64
result of `balance_before ∓ amount` (each coerced back to NUMERIC(20,6)
on insert).  The exact equations `balance_after = balance_before ∓
amount` of the original claim hold only when that float arithmetic is
exact (see the counterexample). -/
theorem flow_double_entry (k : TxType) (db : DBState) (a : FlowArgs) (ftx : FormattedTx)
    (hfresh : FreshId db)
    (hmiss : ∀ key, a.idempotencyKey = some key → findByKey db key = none)
    (hok : (runFlow k db a).result = .ok ftx) :
    ∃ src tgt T dE cE,
      src ∈ db.wallets ∧ src.id = debitIdOf k a ∧
      tgt ∈ db.wallets ∧ tgt.id = creditIdOf k a ∧
      T ∈ (runFlow k db a).db.transactions ∧
      T.id = ftx.id ∧ T.status = .completed ∧ T.type = k ∧ T.amount = round6 a.amount ∧
      ((runFlow k db a).db.ledger_entries.filter (fun e => e.transaction_id = ftx.id))
        = [dE, cE] ∧
      dE = debitEntry src a.amount ftx.id ∧
      cE = creditEntry tgt a.amount ftx.id ∧
      dE.entry_type = .debit ∧ cE.entry_type = .credit ∧
      dE.wallet_id = debitIdOf k a ∧ cE.wallet_id = creditIdOf k a ∧
      dE.amount = T.amount ∧ cE.amount = T.amount ∧
      cE.amount - dE.amount = 0 ∧
      dE.balance_before = round6 (toF64 src.balance) ∧
      dE.balance_after = round6 (fsub (toF64 src.balance) a.amount) ∧
      cE.balance_before = round6 (toF64 tgt.balance) ∧
      cE.balance_after = round6 (fadd (toF64 tgt.balance) a.amount) := by
  have hmain := runFlow_ok_fresh hmiss hok
  obtain ⟨rows, src, tgt, txn, db1, hlock, hsrc, htgt, hsa, hta, hasset, hfunds,
    ⟨r, dsc, mta, hins⟩, hset⟩ := flowMain_ok hmain
  obtain ⟨htxn, hdb1, hpos, hne⟩ := insertTransaction_ok hins
  obtain ⟨hpos2, hnext, hentries, htrans, hwallets, completed, hftx, hcst, hcid, hcfound⟩ :=
    settle_ok hset
  have hrows := lockWallets_rows hlock
  have hsrcmem : src ∈ db.wallets := by
    have hm : src ∈ rows := List.mem_of_find?_eq_some hsrc
    rw [hrows.1] at hm
    exact (mem_lockQuery hm).1
  have htgtmem : tgt ∈ db.wallets := by
    have hm : tgt ∈ rows := List.mem_of_find?_eq_some htgt
    rw [hrows.1] at hm
    exact (mem_lockQuery hm).1
  have hsrcid : src.id = debitIdOf k a := by simpa using List.find?_some hsrc
  have htgtid : tgt.id = creditIdOf k a := by simpa using List.find?_some htgt
  have hfid : ftx.id = txn.id := by
    rw [hftx]
    exact hcid
  have htxnid : txn.id = db.nextTxId := by rw [htxn]
  have hdb1tx : db1.transactions = db.transactions ++ [txn] := by rw [hdb1]
  have hdb1le : db1.ledger_entries = db.ledger_entries := by rw [hdb1]
  have htransfin : (runFlow k db a).db.transactions
      = db.transactions ++ [{ txn with status := .completed }] := by
    rw [htrans, hdb1tx, List.map_append]
    rw [map_complete_fresh (by rw [htxnid]; exact hfresh.1)]
    simp
  have hentfin : (runFlow k db a).db.ledger_entries
      = db.ledger_entries ++ [debitEntry src a.amount txn.id, creditEntry tgt a.amount txn.id] := by
    rw [hentries, hdb1le]
  refine ⟨src, tgt, { txn with status := .completed },
    debitEntry src a.amount ftx.id, creditEntry tgt a.amount ftx.id,
    hsrcmem, hsrcid, htgtmem, htgtid, ?_, ?_, rfl, ?_, ?_, ?_, rfl, rfl, rfl, rfl, ?_, ?_,
    ?_, ?_, ?_, rfl, rfl, rfl, rfl⟩
  · rw [htransfin]
    exact List.mem_append_right _ (List.mem_cons_self _ _)
  · rw [hfid]
  · rw [htxn]
  · rw [htxn]
  · rw [hentfin, hfid, List.filter_append,
      filter_entries_fresh (by rw [htxnid]; exact hfresh.2)]
    simp [debitEntry, creditEntry]
  · exact hsrcid
  · exact htgtid
  · show round6 a.amount = ({ txn with status := .completed } : TxnRow).amount
    rw [htxn]
  · show round6 a.amount = ({ txn with status := .completed } : TxnRow).amount
    rw [htxn]
  · show round6 a.amount - round6 a.amount = 0
    exact sub_self _

/-- The response of the baseline seed topup, as the code formats it. -/
def seedFtx : FormattedTx :=
  { id := 10, type := .topup, status := .completed, userWalletId := 2
    systemWalletId := 1, amount := 100, referenceId := some "stripe-111"
    idempotencyKey := some "k1", description := none, metadata := []
    ledgerEntries := none }

/-- Witness for the double-entry claim: the seed topup satisfies every
conclusion, with all hypotheses discharged on concrete data. -/
theorem flow_double_entry_witness :
    ∃ src tgt T dE cE,
      src ∈ seedDB.wallets ∧ src.id = debitIdOf .topup seedArgs ∧
      tgt ∈ seedDB.wallets ∧ tgt.id = creditIdOf .topup seedArgs ∧
      T ∈ (runFlow .topup seedDB seedArgs).db.transactions ∧
      T.id = seedFtx.id ∧ T.status = .completed ∧ T.type = .topup ∧
      T.amount = round6 seedArgs.amount ∧
      ((runFlow .topup seedDB seedArgs).db.ledger_entries.filter
        (fun e => e.transaction_id = seedFtx.id)) = [dE, cE] ∧
      dE = debitEntry src seedArgs.amount seedFtx.id ∧
      cE = creditEntry tgt seedArgs.amount seedFtx.id ∧
      dE.entry_type = .debit ∧ cE.entry_type = .credit ∧
      dE.wallet_id = debitIdOf .topup seedArgs ∧
      cE.wallet_id = creditIdOf .topup seedArgs ∧
      dE.amount = T.amount ∧ cE.amount = T.amount ∧
      cE.amount - dE.amount = 0 ∧
      dE.balance_before = round6 (toF64 src.balance) ∧
      dE.balance_after = round6 (fsub (toF64 src.balance) seedArgs.amount) ∧
      cE.balance_before = round6 (toF64 tgt.balance) ∧
      cE.balance_after = round6 (fadd (toF64 tgt.balance) seedArgs.amount) :=
  flow_double_entry .topup seedDB seedArgs seedFtx (by decide)
    (fun key hk => by
      simp only [seedArgs] at hk
      injection hk with h
      subst h
      decide)
    (by decide)

/-- A treasury at the NUMERIC(20,6)-representable balance 2^44 and an
empty user wallet. -/
def bigDB : DBState :=
  { wallets := [⟨1, 7, 17592186044416, true⟩, ⟨2, 7, 0, true⟩]
    transactions := []
    ledger_entries := []
    nextTxId := 10 }

/-- A topup of the smallest positive NUMERIC(20,6) amount. -/
def tinyArgs : FlowArgs :=
  { walletId := 2, systemWalletId := 1, amount := 1/1000000, referenceId := "r"
    reason := "x", serviceId := "s", description := none
    metadata := [], idempotencyKey := none }

/-- Counterexample to claim C1 as stated: this topup commits (the
runner issues COMMIT), yet its debit entry records
`balance_after = balance_before` — the binary64 subtraction
`2^44 - 0.000001` rounds back to `2^44` — so
`balance_after = balance_before - amount` is false for a committed
transaction.  (The wallet row itself is debited exactly, by SQL.) -/
theorem flow_double_entry_cex :
    (runFlow .topup bigDB tinyArgs).ctl = [Ctl.beginTx, Ctl.commitTx] ∧
    (runFlow .topup bigDB tinyArgs).db.ledger_entries =
      [{ transaction_id := 10, wallet_id := 1, entry_type := .debit, amount := 1/1000000,
         balance_before := 17592186044416, balance_after := 17592186044416 },
       { transaction_id := 10, wallet_id := 2, entry_type := .credit, amount := 1/1000000,
         balance_before := 0, balance_after := 1/1000000 }] ∧
    ((runFlow .topup bigDB tinyArgs).db.wallets.map Wallet.balance)
      = [17592186044416 - 1/1000000, 1/1000000] ∧
    ¬ ((17592186044416 : ℚ) = 17592186044416 - 1/1000000) := by
  set_option maxRecDepth 16000 in
  refine ⟨by decide, by decide, by decide, by decide⟩

/-- Claim C5 (as amended): on the fresh (non-replayed) success path,
each mutation flow returns a formatted view of the completed
transaction (status `completed`) and the endpoint echoes this body with
HTTP status 201 — but the body does **not** carry the two ledger
entries: the success response is built from the transactions-table row
alone, so its `ledgerEntries` field is absent (`none`); only the
`GET /transactions/:id` view joins the entries in. -/
theorem fresh_success_response (k : TxType) (db : DBState) (a : FlowArgs) (ftx : FormattedTx)
    (hmiss : ∀ key, a.idempotencyKey = some key → findByKey db key = none)
    (hok : (runFlow k db a).result = .ok ftx) :
    flowEndpoint k db a = ((runFlow k db a).db, 201, .success ftx) ∧
    ftx.status = .completed ∧
    ftx.ledgerEntries = none := by
  have hmain := runFlow_ok_fresh hmiss hok
  obtain ⟨rows, src, tgt, txn, db1, h1, h2, h3, h4, h5, h6, h7, h8, hset⟩ := flowMain_ok hmain
  obtain ⟨_, _, _, _, _, completed, hftx, hcst, _, _⟩ := settle_ok hset
  refine ⟨?_, ?_, ?_⟩
  · unfold flowEndpoint
    simp only [hok]
  · rw [hftx]
    exact hcst
  · rw [hftx]
    rfl

/-- Witness for the amended response claim at the seed topup. -/
theorem fresh_success_response_witness :
    flowEndpoint .topup seedDB seedArgs
      = ((runFlow .topup seedDB seedArgs).db, 201, .success seedFtx) ∧
    seedFtx.status = .completed ∧
    seedFtx.ledgerEntries = none :=
  fresh_success_response .topup seedDB seedArgs seedFtx
    (fun key hk => by
      simp only [seedArgs] at hk
      injection hk with h
      subst h
      decide)
    (by decide)

/-- Counterexample to claim C5 as stated: the seed topup's 201 response
carries no ledger entries (`ledgerEntries = none`), although the store
then holds exactly the two entries of that transaction — the endpoint
does not echo the entries. -/
theorem fresh_success_response_cex :
    (flowEndpoint .topup seedDB seedArgs).2.1 = 201 ∧
    (flowEndpoint .topup seedDB seedArgs).2.2 = .success seedFtx ∧
    seedFtx.ledgerEntries = none ∧
    ((flowEndpoint .topup seedDB seedArgs).1.ledger_entries.filter
      (fun e => e.transaction_id = seedFtx.id)).length = 2 := by
  refine ⟨by decide, by decide, by decide, by decide⟩

/-! ## Replay idempotence -/

lemma find?_append_of_none {α : Type} {p : α → Bool} {l1 l2 : List α}
    (h : l1.find? p = none) : (l1 ++ l2).find? p = l2.find? p := by
  induction l1 with
  | nil => rfl
  | cons x xs ih =>
    cases hx : p x with
    | true =>
      rw [List.find?_cons_of_pos _ hx] at h
      simp at h
    | false =>
      rw [List.find?_cons_of_neg _ (by simp [hx])] at h
      rw [List.cons_append, List.find?_cons_of_neg _ (by simp [hx])]
      exact ih h

lemma nodup_append_singleton {l : List Nat} {x : Nat} (hl : l.Nodup) (hx : x ∉ l) :
    (l ++ [x]).Nodup := by
  rw [List.nodup_append]
  exact ⟨hl, List.nodup_singleton x,
    fun a ha hax => hx ((List.mem_singleton.mp hax) ▸ ha)⟩

/-- Number of transaction rows carrying a given idempotency key. -/
def countKey (db : DBState) (key : String) : Nat :=
  (db.transactions.filter (fun t => t.idempotency_key = some key)).length

/-- `n` successive replays of the same request, threading the state. -/
def iterateFlow (k : TxType) (a : FlowArgs) : Nat → DBState → DBState
  | 0, db => db
  | n+1, db => iterateFlow k a n ((runFlow k db a).db)

/-- Claim C3: after a fresh successful mutation with idempotency key
`key`, exactly one transaction row exists for that key; replaying the
same request any number of times returns the same stored transaction
(the same response body), performs no writes, and leaves every wallet
balance unchanged (the state after any number of replays is the state
after the first run). -/
theorem idempotent_replay (k : TxType) (db0 : DBState) (a : FlowArgs) (key : String)
    (ftx : FormattedTx)
    (hkey : a.idempotencyKey = some key)
    (hfresh : FreshId db0)
    (hnd : TxIdsNodup db0)
    (hnew : findByKey db0 key = none)
    (hok : (runFlow k db0 a).result = .ok ftx) :
    countKey (runFlow k db0 a).db key = 1 ∧
    (runFlow k ((runFlow k db0 a).db) a).result = .ok ftx ∧
    (runFlow k ((runFlow k db0 a).db) a).db = (runFlow k db0 a).db ∧
    (∀ n, iterateFlow k a n ((runFlow k db0 a).db) = (runFlow k db0 a).db) := by
  have hmiss : ∀ key', a.idempotencyKey = some key' → findByKey db0 key' = none := by
    intro key' hk'
    rw [hkey] at hk'
    injection hk' with h
    subst h
    exact hnew
  have hmain := runFlow_ok_fresh hmiss hok
  obtain ⟨rows, src, tgt, txn, db1, h1, h2, h3, h4, h5, h6, h7, ⟨r, dsc, mta, hins⟩, hset⟩ :=
    flowMain_ok hmain
  obtain ⟨htxn, hdb1, hpos, hne⟩ := insertTransaction_ok hins
  obtain ⟨_, _, _, htrans, _, completed, hftx, hcst, hcid, hcfound⟩ := settle_ok hset
  have hdb1tx : db1.transactions = db0.transactions ++ [txn] := by rw [hdb1]
  have htxnid : txn.id = db0.nextTxId := by rw [htxn]
  have htxnkey : txn.idempotency_key = some key := by
    rw [htxn]
    exact hkey
  have holdid : ∀ t ∈ db0.transactions, t.id ≠ txn.id := by
    rw [htxnid]
    exact hfresh.1
  have htransfin : (runFlow k db0 a).db.transactions
      = db0.transactions ++ [{ txn with status := TxStatus.completed }] := by
    rw [htrans, hdb1tx, List.map_append, map_complete_fresh holdid]
    simp
  have holdnone : db0.transactions.find? (fun t => t.id = txn.id) = none :=
    List.find?_eq_none.mpr (fun t ht => by simpa using holdid t ht)
  have hcompT : completed = { txn with status := TxStatus.completed } := by
    rw [hdb1tx, List.map_append, map_complete_fresh holdid] at hcfound
    rw [find?_append_of_none holdnone] at hcfound
    simp only [List.map_cons, List.map_nil] at hcfound
    rw [if_pos trivial] at hcfound
    rw [List.find?_cons_of_pos _ (by simp)] at hcfound
    injection hcfound with h
    exact h.symm
  have hcount : countKey (runFlow k db0 a).db key = 1 := by
    unfold countKey
    rw [htransfin, List.filter_append, filter_key_nil hnew]
    simp [htxnkey]
  have hkeynone : db0.transactions.find? (fun t => t.idempotency_key = some key) = none := by
    unfold findByKey at hnew
    exact hnew
  have hfind' : findByKey (runFlow k db0 a).db key
      = some ({ txn with status := TxStatus.completed }) := by
    unfold findByKey
    rw [htransfin, find?_append_of_none hkeynone,
      List.find?_cons_of_pos _ (by simpa using htxnkey)]
  have hnd' : TxIdsNodup (runFlow k db0 a).db := by
    unfold TxIdsNodup
    rw [htransfin, List.map_append]
    refine nodup_append_singleton hnd ?_
    intro hmem
    obtain ⟨t, ht, hid⟩ := List.mem_map.mp hmem
    exact holdid t ht hid
  have hftxT : ftx = formatTransaction ({ txn with status := TxStatus.completed }) none := by
    rw [hftx, hcompT]
  have hbody := flowBody_hit k ((runFlow k db0 a).db) ((runFlow k db0 a).db) a key
    ({ txn with status := TxStatus.completed }) hkey hfind' hnd'
  have hout : runFlow k ((runFlow k db0 a).db) a =
      ⟨(runFlow k db0 a).db,
        .ok (formatTransaction ({ txn with status := TxStatus.completed }) none),
        [Ctl.beginTx, Ctl.commitTx], true⟩ := by
    rw [runFlow_eq_withTransaction]
    unfold withTransaction
    rw [hbody]
  have hstep : (runFlow k ((runFlow k db0 a).db) a).db = (runFlow k db0 a).db := by
    rw [hout]
  refine ⟨hcount, ?_, hstep, ?_⟩
  · rw [hout, hftxT]
  · intro n
    induction n with
    | zero => rfl
    | succ m ih =>
      show iterateFlow k a m ((runFlow k ((runFlow k db0 a).db) a).db) = (runFlow k db0 a).db
      rw [hstep]
      exact ih

/-- Witness for the replay claim: the seed topup, then a replay. -/
theorem idempotent_replay_witness :
    countKey (runFlow .topup seedDB seedArgs).db "k1" = 1 ∧
    (runFlow .topup ((runFlow .topup seedDB seedArgs).db) seedArgs).result = .ok seedFtx ∧
    (runFlow .topup ((runFlow .topup seedDB seedArgs).db) seedArgs).db
      = (runFlow .topup seedDB seedArgs).db ∧
    (∀ n, iterateFlow .topup seedArgs n ((runFlow .topup seedDB seedArgs).db)
      = (runFlow .topup seedDB seedArgs).db) :=
  idempotent_replay .topup seedDB seedArgs "k1" seedFtx (by decide) (by decide)
    (by decide) (by decide) (by decide)

/-! ## Validation failures: lock-query facts and partial evaluation -/

lemma lockQuery_sortIds (db : DBState) (x y : Nat) :
    lockQuery db (sortIds x y).1 (sortIds x y).2 = lockQuery db x y := by
  unfold lockQuery sortIds
  split
  · rfl
  · congr 1
    apply List.filter_congr
    intro w _
    exact decide_eq_decide.mpr or_comm

lemma mem_lockQuery_of {db : DBState} {w : Wallet} {i1 i2 : Nat}
    (hw : w ∈ db.wallets) (hid : w.id = i1 ∨ w.id = i2) : w ∈ lockQuery db i1 i2 := by
  unfold lockQuery
  rw [(List.perm_insertionSort _ _).mem_iff]
  exact List.mem_filter.mpr ⟨hw, by simpa using hid⟩

lemma two_le_length_of_mem_ne {α : Type} {l : List α} {a b : α}
    (ha : a ∈ l) (hb : b ∈ l) (hne : a ≠ b) : 2 ≤ l.length := by
  cases l with
  | nil => cases ha
  | cons x xs =>
    cases xs with
    | nil =>
      simp at ha hb
      subst ha
      subst hb
      exact absurd rfl hne
    | cons y ys => simp [List.length_cons]
      
lemma find?_lockQuery {db : DBState} (hnd : WalletIdsNodup db) {x : Nat} {w : Wallet}
    (hw : w ∈ db.wallets) (hid : w.id = x) (i1 i2 : Nat) (hx : x = i1 ∨ x = i2) :
    (lockQuery db i1 i2).find? (fun v => v.id = x) = some w := by
  have hmemq : w ∈ lockQuery db i1 i2 :=
    mem_lockQuery_of hw (by rw [hid]; exact hx)
  have hsome : ((lockQuery db i1 i2).find? (fun v => v.id = x)).isSome := by
    rw [List.find?_isSome]
    exact ⟨w, hmemq, by simp [hid]⟩
  obtain ⟨v, hv⟩ := Option.isSome_iff_exists.mp hsome
  have hvid : v.id = x := by simpa using List.find?_some hv
  have hvw : v ∈ db.wallets := (mem_lockQuery (List.mem_of_find?_eq_some hv)).1
  have hveq : v = w :=
    List.inj_on_of_nodup_map hnd hvw hw (hvid.trans hid.symm)
  rw [hv, hveq]

/-- A successful lock of two distinct present wallets. -/
lemma lockWallets_ok_of_members {db : DBState} {A B : Nat} {sw uw : Wallet}
    (hswm : sw ∈ db.wallets) (hswi : sw.id = A)
    (huwm : uw ∈ db.wallets) (huwi : uw.id = B) (hne : A ≠ B) :
    lockWallets db (sortIds A B).1 (sortIds A B).2 = .ok (lockQuery db A B) := by
  have hswq : sw ∈ lockQuery db A B := mem_lockQuery_of hswm (Or.inl hswi)
  have huwq : uw ∈ lockQuery db A B := mem_lockQuery_of huwm (Or.inr huwi)
  have hwne : sw ≠ uw := fun h => hne (hswi ▸ huwi ▸ congrArg Wallet.id h)
  have hlen : 2 ≤ (lockQuery db A B).length := two_le_length_of_mem_ne hswq huwq hwne
  unfold lockWallets
  rw [lockQuery_sortIds]
  rw [if_neg (Nat.not_lt.mpr hlen)]

/-- `topupMain` once both wallet rows are locked and found. -/
lemma topupMain_eval {a : TopupArgs} {db : DBState} {sw uw : Wallet}
    (hlock : lockWallets db (sortIds a.systemWalletId a.walletId).1
      (sortIds a.systemWalletId a.walletId).2 = .ok (lockQuery db a.systemWalletId a.walletId))
    (hfsw : (lockQuery db a.systemWalletId a.walletId).find?
      (fun w => w.id = a.systemWalletId) = some sw)
    (hfuw : (lockQuery db a.systemWalletId a.walletId).find?
      (fun w => w.id = a.walletId) = some uw) :
    topupMain a db =
      (if sw.is_active = false then .error (.conflict "System wallet is inactive")
      else if uw.is_active = false then .error (.conflict "User wallet is inactive")
      else if sw.asset_type_id ≠ uw.asset_type_id then
        .error (.conflict "Wallet asset types do not match")
      else if toF64 sw.balance < a.amount then
        .error (.insufficientFunds sw.balance a.amount)
      else
        match insertTransaction db .topup a.walletId a.systemWalletId a.amount
            (some a.referenceId) a.idempotencyKey a.description a.metadata with
        | .error e => .error e
        | .ok (db1, txn) => settle db1 sw uw a.amount txn) := by
  unfold topupMain
  simp only [hlock, hfsw, hfuw]

/-- `bonusMain` once both wallet rows are locked and found. -/
lemma bonusMain_eval {a : BonusArgs} {db : DBState} {sw uw : Wallet}
    (hlock : lockWallets db (sortIds a.systemWalletId a.walletId).1
      (sortIds a.systemWalletId a.walletId).2 = .ok (lockQuery db a.systemWalletId a.walletId))
    (hfsw : (lockQuery db a.systemWalletId a.walletId).find?
      (fun w => w.id = a.systemWalletId) = some sw)
    (hfuw : (lockQuery db a.systemWalletId a.walletId).find?
      (fun w => w.id = a.walletId) = some uw) :
    bonusMain a db =
      (if sw.is_active = false then .error (.conflict "Bonus pool wallet is inactive")
      else if uw.is_active = false then .error (.conflict "User wallet is inactive")
      else if sw.asset_type_id ≠ uw.asset_type_id then
        .error (.conflict "Wallet asset types do not match")
      else if toF64 sw.balance < a.amount then
        .error (.insufficientFunds sw.balance a.amount)
      else
        match insertTransaction db .bonus a.walletId a.systemWalletId a.amount
            none a.idempotencyKey (some (a.description.getD ("Bonus: " ++ a.reason)))
            (("reason", a.reason) :: a.metadata) with
        | .error e => .error e
        | .ok (db1, txn) => settle db1 sw uw a.amount txn) := by
  unfold bonusMain
  simp only [hlock, hfsw, hfuw]

/-- `spendMain` once both wallet rows are locked and found. -/
lemma spendMain_eval {a : SpendArgs} {db : DBState} {sw uw : Wallet}
    (hlock : lockWallets db (sortIds a.walletId a.systemWalletId).1
      (sortIds a.walletId a.systemWalletId).2 = .ok (lockQuery db a.walletId a.systemWalletId))
    (hfuw : (lockQuery db a.walletId a.systemWalletId).find?
      (fun w => w.id = a.walletId) = some uw)
    (hfsw : (lockQuery db a.walletId a.systemWalletId).find?
      (fun w => w.id = a.systemWalletId) = some sw) :
    spendMain a db =
      (if uw.is_active = false then .error (.conflict "User wallet is inactive")
      else if sw.is_active = false then .error (.conflict "Revenue wallet is inactive")
      else if uw.asset_type_id ≠ sw.asset_type_id then
        .error (.conflict "Wallet asset types do not match")
      else if toF64 uw.balance < a.amount then
        .error (.insufficientFunds (toF64 uw.balance) a.amount)
      else
        match insertTransaction db .spend a.walletId a.systemWalletId a.amount
            none a.idempotencyKey (some (a.description.getD ("Purchase: " ++ a.serviceId)))
            (("serviceId", a.serviceId) :: a.metadata) with
        | .error e => .error e
        | .ok (db1, txn) => settle db1 uw sw a.amount txn) := by
  unfold spendMain
  simp only [hlock, hfuw, hfsw]

lemma lockWallets_error_shape {db : DBState} {i1 i2 : Nat} {e : AppErr}
    (h : lockWallets db i1 i2 = .error e) : e = .notFound "One or both wallets" := by
  unfold lockWallets at h
  split at h
  · injection h with h
    exact h.symm
  · simp at h

lemma find?_lockQuery_none {db : DBState} {x : Nat}
    (hm : ∀ w ∈ db.wallets, w.id ≠ x) (i1 i2 : Nat) :
    (lockQuery db i1 i2).find? (fun v => v.id = x) = none :=
  List.find?_eq_none.mpr (fun w hw => by
    simpa using hm w (mem_lockQuery hw).1)

lemma sortIds_self (x : Nat) : sortIds x x = (x, x) := by
  unfold sortIds
  split <;> rfl

lemma length_filter_id_le_one {l : List Wallet} (h : (l.map Wallet.id).Nodup) (x : Nat) :
    (l.filter (fun w => w.id = x ∨ w.id = x)).length ≤ 1 := by
  induction l with
  | nil => simp
  | cons a as ih =>
    rw [List.map_cons, List.nodup_cons] at h
    by_cases ha : a.id = x
    · rw [List.filter_cons_of_pos (by simp [ha])]
      have hnil : as.filter (fun w => w.id = x ∨ w.id = x) = [] := by
        apply List.filter_eq_nil_iff.mpr
        intro b hb hbx
        apply h.1
        have hbid : b.id = x := by simpa using hbx
        rw [ha, ← hbid]
        exact List.mem_map_of_mem Wallet.id hb
      rw [hnil]
      simp
    · rw [List.filter_cons_of_neg (by simp [ha])]
      exact ih h.2

lemma lockQuery_dup_short {db : DBState} (hnd : WalletIdsNodup db) (x : Nat) :
    (lockQuery db x x).length < 2 := by
  unfold lockQuery
  rw [(List.perm_insertionSort _ _).length_eq]
  exact Nat.lt_of_le_of_lt (length_filter_id_le_one hnd x) (by omega)

lemma topupMain_notFound {a : TopupArgs} {db : DBState}
    (hm : (∀ w ∈ db.wallets, w.id ≠ a.walletId) ∨ (∀ w ∈ db.wallets, w.id ≠ a.systemWalletId)) :
    ∃ res, topupMain a db = .error (.notFound res) := by
  cases hl : lockWallets db (sortIds a.systemWalletId a.walletId).1
      (sortIds a.systemWalletId a.walletId).2 with
  | error e =>
    have he := lockWallets_error_shape hl
    subst he
    refine ⟨"One or both wallets", ?_⟩
    unfold topupMain
    simp only [hl]
  | ok rows =>
    have hr := (lockWallets_rows hl).1
    subst hr
    unfold topupMain
    simp only [hl]
    rcases hm with hm | hm
    · have hfu := find?_lockQuery_none hm (sortIds a.systemWalletId a.walletId).1
        (sortIds a.systemWalletId a.walletId).2
      cases hfs : (lockQuery db (sortIds a.systemWalletId a.walletId).1
          (sortIds a.systemWalletId a.walletId).2).find? (fun w => w.id = a.systemWalletId) with
      | none =>
        simp only [hfs]
        exact ⟨_, rfl⟩
      | some w =>
        simp only [hfs, hfu]
        exact ⟨_, rfl⟩
    · have hfs := find?_lockQuery_none hm (sortIds a.systemWalletId a.walletId).1
        (sortIds a.systemWalletId a.walletId).2
      simp only [hfs]
      exact ⟨_, rfl⟩

lemma bonusMain_notFound {a : BonusArgs} {db : DBState}
    (hm : (∀ w ∈ db.wallets, w.id ≠ a.walletId) ∨ (∀ w ∈ db.wallets, w.id ≠ a.systemWalletId)) :
    ∃ res, bonusMain a db = .error (.notFound res) := by
  cases hl : lockWallets db (sortIds a.systemWalletId a.walletId).1
      (sortIds a.systemWalletId a.walletId).2 with
  | error e =>
    have he := lockWallets_error_shape hl
    subst he
    refine ⟨"One or both wallets", ?_⟩
    unfold bonusMain
    simp only [hl]
  | ok rows =>
    have hr := (lockWallets_rows hl).1
    subst hr
    unfold bonusMain
    simp only [hl]
    rcases hm with hm | hm
    · have hfu := find?_lockQuery_none hm (sortIds a.systemWalletId a.walletId).1
        (sortIds a.systemWalletId a.walletId).2
      cases hfs : (lockQuery db (sortIds a.systemWalletId a.walletId).1
          (sortIds a.systemWalletId a.walletId).2).find? (fun w => w.id = a.systemWalletId) with
      | none =>
        simp only [hfs]
        exact ⟨_, rfl⟩
      | some w =>
        simp only [hfs, hfu]
        exact ⟨_, rfl⟩
    · have hfs := find?_lockQuery_none hm (sortIds a.systemWalletId a.walletId).1
        (sortIds a.systemWalletId a.walletId).2
      simp only [hfs]
      exact ⟨_, rfl⟩

lemma spendMain_notFound {a : SpendArgs} {db : DBState}
    (hm : (∀ w ∈ db.wallets, w.id ≠ a.walletId) ∨ (∀ w ∈ db.wallets, w.id ≠ a.systemWalletId)) :
    ∃ res, spendMain a db = .error (.notFound res) := by
  cases hl : lockWallets db (sortIds a.walletId a.systemWalletId).1
      (sortIds a.walletId a.systemWalletId).2 with
  | error e =>
    have he := lockWallets_error_shape hl
    subst he
    refine ⟨"One or both wallets", ?_⟩
    unfold spendMain
    simp only [hl]
  | ok rows =>
    have hr := (lockWallets_rows hl).1
    subst hr
    unfold spendMain
    simp only [hl]
    rcases hm with hm | hm
    · have hfu := find?_lockQuery_none hm (sortIds a.walletId a.systemWalletId).1
        (sortIds a.walletId a.systemWalletId).2
      simp only [hfu]
      exact ⟨_, rfl⟩
    · have hfs := find?_lockQuery_none hm (sortIds a.walletId a.systemWalletId).1
        (sortIds a.walletId a.systemWalletId).2
      cases hfu : (lockQuery db (sortIds a.walletId a.systemWalletId).1
          (sortIds a.walletId a.systemWalletId).2).find? (fun w => w.id = a.walletId) with
      | none =>
        simp only [hfu]
        exact ⟨_, rfl⟩
      | some w =>
        simp only [hfu, hfs]
        exact ⟨_, rfl⟩

lemma flowMain_notFound {k : TxType} {a : FlowArgs} {db : DBState}
    (hm : (∀ w ∈ db.wallets, w.id ≠ a.walletId) ∨ (∀ w ∈ db.wallets, w.id ≠ a.systemWalletId)) :
    ∃ res, flowMain k a db = .error (.notFound res) := by
  cases k with
  | topup => exact topupMain_notFound hm
  | bonus => exact bonusMain_notFound hm
  | spend => exact spendMain_notFound hm

/-- Propagation of a main-body fault through the runner on a fresh
request. -/
lemma runFlow_error_of_main {k : TxType} {db : DBState} {a : FlowArgs} {e : AppErr}
    (hmiss : ∀ key, a.idempotencyKey = some key → findByKey db key = none)
    (hmain : flowMain k a db = .error e) :
    (runFlow k db a).result = .error e ∧ (runFlow k db a).db = db ∧
    (runFlow k db a).ctl = [Ctl.beginTx, Ctl.rollbackTx] := by
  rw [runFlow_eq_withTransaction]
  unfold withTransaction
  simp [flowBody_miss hmiss db, hmain]

lemma flowMain_conflict_inactive {k : TxType} {a : FlowArgs} {db : DBState}
    (hnd : WalletIdsNodup db) (sw uw : Wallet)
    (hswm : sw ∈ db.wallets) (hswi : sw.id = a.systemWalletId)
    (huwm : uw ∈ db.wallets) (huwi : uw.id = a.walletId)
    (hne : a.walletId ≠ a.systemWalletId)
    (hinact : sw.is_active = false ∨ uw.is_active = false) :
    ∃ msg, flowMain k a db = .error (.conflict msg) := by
  cases k with
  | topup =>
    have hlock := lockWallets_ok_of_members hswm hswi huwm huwi (fun h => hne h.symm)
    have hfsw := find?_lockQuery hnd hswm hswi a.systemWalletId a.walletId (Or.inl rfl)
    have hfuw := find?_lockQuery hnd huwm huwi a.systemWalletId a.walletId (Or.inr rfl)
    have heval := topupMain_eval (a := a.toTopup) hlock hfsw hfuw
    show ∃ msg, topupMain a.toTopup db = .error (.conflict msg)
    rw [heval]
    rcases hinact with h | h
    · exact ⟨_, by rw [if_pos h]⟩
    · by_cases hsw : sw.is_active = false
      · exact ⟨_, by rw [if_pos hsw]⟩
      · exact ⟨_, by rw [if_neg hsw, if_pos h]⟩
  | bonus =>
    have hlock := lockWallets_ok_of_members hswm hswi huwm huwi (fun h => hne h.symm)
    have hfsw := find?_lockQuery hnd hswm hswi a.systemWalletId a.walletId (Or.inl rfl)
    have hfuw := find?_lockQuery hnd huwm huwi a.systemWalletId a.walletId (Or.inr rfl)
    have heval := bonusMain_eval (a := a.toBonus) hlock hfsw hfuw
    show ∃ msg, bonusMain a.toBonus db = .error (.conflict msg)
    rw [heval]
    rcases hinact with h | h
    · exact ⟨_, by rw [if_pos h]⟩
    · by_cases hsw : sw.is_active = false
      · exact ⟨_, by rw [if_pos hsw]⟩
      · exact ⟨_, by rw [if_neg hsw, if_pos h]⟩
  | spend =>
    have hlock := lockWallets_ok_of_members huwm huwi hswm hswi hne
    have hfuw := find?_lockQuery hnd huwm huwi a.walletId a.systemWalletId (Or.inl rfl)
    have hfsw := find?_lockQuery hnd hswm hswi a.walletId a.systemWalletId (Or.inr rfl)
    have heval := spendMain_eval (a := a.toSpend) hlock hfuw hfsw
    show ∃ msg, spendMain a.toSpend db = .error (.conflict msg)
    rw [heval]
    rcases hinact with h | h
    · by_cases huw : uw.is_active = false
      · exact ⟨_, by rw [if_pos huw]⟩
      · exact ⟨_, by rw [if_neg huw, if_pos h]⟩
    · exact ⟨_, by rw [if_pos h]⟩

lemma flowMain_conflict_mismatch {k : TxType} {a : FlowArgs} {db : DBState}
    (hnd : WalletIdsNodup db) (sw uw : Wallet)
    (hswm : sw ∈ db.wallets) (hswi : sw.id = a.systemWalletId)
    (huwm : uw ∈ db.wallets) (huwi : uw.id = a.walletId)
    (hne : a.walletId ≠ a.systemWalletId)
    (h1 : sw.is_active = true) (h2 : uw.is_active = true)
    (hmm : sw.asset_type_id ≠ uw.asset_type_id) :
    flowMain k a db = .error (.conflict "Wallet asset types do not match") := by
  cases k with
  | topup =>
    have hlock := lockWallets_ok_of_members hswm hswi huwm huwi (fun h => hne h.symm)
    have hfsw := find?_lockQuery hnd hswm hswi a.systemWalletId a.walletId (Or.inl rfl)
    have hfuw := find?_lockQuery hnd huwm huwi a.systemWalletId a.walletId (Or.inr rfl)
    have heval := topupMain_eval (a := a.toTopup) hlock hfsw hfuw
    show topupMain a.toTopup db = _
    rw [heval, if_neg (by simp [h1]), if_neg (by simp [h2]), if_pos hmm]
  | bonus =>
    have hlock := lockWallets_ok_of_members hswm hswi huwm huwi (fun h => hne h.symm)
    have hfsw := find?_lockQuery hnd hswm hswi a.systemWalletId a.walletId (Or.inl rfl)
    have hfuw := find?_lockQuery hnd huwm huwi a.systemWalletId a.walletId (Or.inr rfl)
    have heval := bonusMain_eval (a := a.toBonus) hlock hfsw hfuw
    show bonusMain a.toBonus db = _
    rw [heval, if_neg (by simp [h1]), if_neg (by simp [h2]), if_pos hmm]
  | spend =>
    have hlock := lockWallets_ok_of_members huwm huwi hswm hswi hne
    have hfuw := find?_lockQuery hnd huwm huwi a.walletId a.systemWalletId (Or.inl rfl)
    have hfsw := find?_lockQuery hnd hswm hswi a.walletId a.systemWalletId (Or.inr rfl)
    have heval := spendMain_eval (a := a.toSpend) hlock hfuw hfsw
    show spendMain a.toSpend db = _
    rw [heval, if_neg (by simp [h2]), if_neg (by simp [h1]), if_pos (Ne.symm hmm)]

lemma flowMain_dup_id {k : TxType} {a : FlowArgs} {db : DBState}
    (hnd : WalletIdsNodup db) (heq : a.walletId = a.systemWalletId) :
    flowMain k a db = .error (.notFound "One or both wallets") := by
  have hlockerr : lockWallets db a.walletId a.walletId
      = .error (.notFound "One or both wallets") := by
    unfold lockWallets
    rw [if_pos (lockQuery_dup_short hnd a.walletId)]
  have hlock2 : lockWallets db (sortIds a.systemWalletId a.walletId).1
      (sortIds a.systemWalletId a.walletId).2 = .error (.notFound "One or both wallets") := by
    rw [← heq, sortIds_self]
    exact hlockerr
  have hlock3 : lockWallets db (sortIds a.walletId a.systemWalletId).1
      (sortIds a.walletId a.systemWalletId).2 = .error (.notFound "One or both wallets") := by
    rw [← heq, sortIds_self]
    exact hlockerr
  cases k with
  | topup =>
    show topupMain a.toTopup db = _
    unfold topupMain
    simp only [FlowArgs.toTopup, hlock2]
  | bonus =>
    show bonusMain a.toBonus db = _
    unfold bonusMain
    simp only [FlowArgs.toBonus, hlock2]
  | spend =>
    show spendMain a.toSpend db = _
    unfold spendMain
    simp only [FlowArgs.toSpend, hlock3]

/-- Claim C6: on a fresh request, (i) if either requested wallet id
matches no wallet row the flow raises NotFound with no writes; (ii)
when `walletId = systemWalletId` the locker's query returns fewer than
two rows, so the flow fails (NotFound) without writes; (iii) if either
returned wallet is inactive the flow raises Conflict with no writes;
(iv) if the two wallets' asset types differ the flow raises Conflict
with no writes.  "No writes" is the runner's rollback: the state after
the run is the state before, and ROLLBACK was issued. -/
theorem flow_precondition_faults (k : TxType) (db : DBState) (a : FlowArgs)
    (hmiss : ∀ key, a.idempotencyKey = some key → findByKey db key = none) :
    ((∀ w ∈ db.wallets, w.id ≠ a.walletId) ∨ (∀ w ∈ db.wallets, w.id ≠ a.systemWalletId) →
      ∃ res, (runFlow k db a).result = .error (.notFound res) ∧
        (runFlow k db a).db = db ∧ (runFlow k db a).ctl = [Ctl.beginTx, Ctl.rollbackTx]) ∧
    (WalletIdsNodup db → a.walletId = a.systemWalletId →
      (lockQuery db a.walletId a.systemWalletId).length < 2 ∧
      (runFlow k db a).result = .error (.notFound "One or both wallets") ∧
      (runFlow k db a).db = db ∧ (runFlow k db a).ctl = [Ctl.beginTx, Ctl.rollbackTx]) ∧
    (∀ sw uw, WalletIdsNodup db → sw ∈ db.wallets → sw.id = a.systemWalletId →
      uw ∈ db.wallets → uw.id = a.walletId → a.walletId ≠ a.systemWalletId →
      (sw.is_active = false ∨ uw.is_active = false) →
      ∃ msg, (runFlow k db a).result = .error (.conflict msg) ∧
        (runFlow k db a).db = db ∧ (runFlow k db a).ctl = [Ctl.beginTx, Ctl.rollbackTx]) ∧
    (∀ sw uw, WalletIdsNodup db → sw ∈ db.wallets → sw.id = a.systemWalletId →
      uw ∈ db.wallets → uw.id = a.walletId → a.walletId ≠ a.systemWalletId →
      sw.is_active = true → uw.is_active = true →
      sw.asset_type_id ≠ uw.asset_type_id →
      (runFlow k db a).result = .error (.conflict "Wallet asset types do not match") ∧
        (runFlow k db a).db = db ∧ (runFlow k db a).ctl = [Ctl.beginTx, Ctl.rollbackTx]) := by
  refine ⟨?_, ?_, ?_, ?_⟩
  · intro hm
    obtain ⟨res, hres⟩ := flowMain_notFound (k := k) hm
    exact ⟨res, (runFlow_error_of_main hmiss hres).1, (runFlow_error_of_main hmiss hres).2.1,
      (runFlow_error_of_main hmiss hres).2.2⟩
  · intro hnd heq
    have hlen : (lockQuery db a.walletId a.systemWalletId).length < 2 := by
      rw [← heq]
      exact lockQuery_dup_short hnd a.walletId
    have h := runFlow_error_of_main hmiss (flowMain_dup_id (k := k) hnd heq)
    exact ⟨hlen, h.1, h.2.1, h.2.2⟩
  · intro sw uw hnd hswm hswi huwm huwi hne hinact
    obtain ⟨msg, hmsg⟩ := flowMain_conflict_inactive (k := k) hnd sw uw hswm hswi huwm huwi hne hinact
    have h := runFlow_error_of_main hmiss hmsg
    exact ⟨msg, h.1, h.2.1, h.2.2⟩
  · intro sw uw hnd hswm hswi huwm huwi hne h1 h2 hmm
    have h := runFlow_error_of_main hmiss
      (flowMain_conflict_mismatch (k := k) hnd sw uw hswm hswi huwm huwi hne h1 h2 hmm)
    exact ⟨h.1, h.2.1, h.2.2⟩

/-- A state for the fault witnesses: an inactive treasury (id 1) and an
active user wallet (id 2) of a different asset type. -/
def faultDB : DBState :=
  { wallets := [⟨1, 7, 1000000, false⟩, ⟨2, 8, 500, true⟩]
    transactions := []
    ledger_entries := []
    nextTxId := 10 }

/-- Witness for the precondition-fault claim: on `faultDB` the inactive
treasury makes a fresh topup roll back with a Conflict, and a topup
naming an unknown wallet id rolls back with NotFound. -/
theorem flow_precondition_faults_witness :
    (∃ msg, (runFlow .topup faultDB seedArgs).result = .error (.conflict msg) ∧
      (runFlow .topup faultDB seedArgs).db = faultDB ∧
      (runFlow .topup faultDB seedArgs).ctl = [Ctl.beginTx, Ctl.rollbackTx]) ∧
    (∃ res, (runFlow .topup emptyDB seedArgs).result = .error (.notFound res) ∧
      (runFlow .topup emptyDB seedArgs).db = emptyDB ∧
      (runFlow .topup emptyDB seedArgs).ctl = [Ctl.beginTx, Ctl.rollbackTx]) := by
  have hmiss : ∀ key, seedArgs.idempotencyKey = some key → findByKey faultDB key = none := by
    intro key hk
    simp only [seedArgs] at hk
    injection hk with h
    subst h
    decide
  have hmiss2 : ∀ key, seedArgs.idempotencyKey = some key → findByKey emptyDB key = none := by
    intro key hk
    simp only [seedArgs] at hk
    injection hk with h
    subst h
    decide
  constructor
  · exact (flow_precondition_faults .topup faultDB seedArgs hmiss).2.2.1
      ⟨1, 7, 1000000, false⟩ ⟨2, 8, 500, true⟩ (by decide) (by decide) (by decide)
      (by decide) (by decide) (by decide) (Or.inl (by decide))
  · exact (flow_precondition_faults .topup emptyDB seedArgs hmiss2).1
      (Or.inl (by intro w hw; cases hw))

/-! ## The insufficiency check is a binary64 comparison -/

lemma insertTransaction_error {db : DBState} {ty : TxType} {u s : Nat} {am : ℚ}
    {r k d : Option String} {m : List (String × String)} {e : AppErr}
    (h : insertTransaction db ty u s am r k d m = .error e) : ∃ d2, e = .dbError d2 := by
  unfold insertTransaction at h
  split at h
  · injection h with h
    exact ⟨_, h.symm⟩
  · split at h
    · injection h with h
      exact ⟨_, h.symm⟩
    · split at h
      · injection h with h
        exact ⟨_, h.symm⟩
      · simp at h

lemma updateWalletBalance_error {db : DBState} {wid : Nat} {delta : ℚ} {e : AppErr}
    (h : updateWalletBalance db wid delta = .error e) : e = .dbError .checkViolation := by
  unfold updateWalletBalance at h
  split at h
  · simp at h
  · injection h with h
    exact h.symm

lemma insertLedgerEntry_error {db : DBState} {txId wid : Nat} {ty : EntryType}
    {am bb ba : ℚ} {e : AppErr}
    (h : insertLedgerEntry db txId wid ty am bb ba = .error e) :
    e = .dbError .checkViolation := by
  unfold insertLedgerEntry at h
  split at h
  · simp at h
  · injection h with h
    exact h.symm

lemma debitWallet_error {db : DBState} {w : Wallet} {am : ℚ} {tx : Nat} {e : AppErr}
    (h : debitWallet db w am tx = .error e) : e = .dbError .checkViolation := by
  unfold debitWallet at h
  split at h
  next e2 hub =>
    injection h with h
    rw [← h]
    exact updateWalletBalance_error hub
  next db1 hub => exact insertLedgerEntry_error h

lemma creditWallet_error {db : DBState} {w : Wallet} {am : ℚ} {tx : Nat} {e : AppErr}
    (h : creditWallet db w am tx = .error e) : e = .dbError .checkViolation := by
  unfold creditWallet at h
  split at h
  next e2 hub =>
    injection h with h
    rw [← h]
    exact updateWalletBalance_error hub
  next db1 hub => exact insertLedgerEntry_error h

lemma settle_error {db : DBState} {src tgt : Wallet} {am : ℚ} {txn : TxnRow} {e : AppErr}
    (h : settle db src tgt am txn = .error e) :
    (∃ d2, e = .dbError d2) ∨ (∃ msg, e = .internal msg) := by
  unfold settle at h
  split at h
  next e2 hdeb =>
    injection h with h
    exact Or.inl ⟨_, h.symm.trans (debitWallet_error hdeb)⟩
  next db2 hdeb =>
    split at h
    next e2 hcred =>
      injection h with h
      exact Or.inl ⟨_, h.symm.trans (creditWallet_error hcred)⟩
    next db3 hcred =>
      split at h
      next db4 hcomp =>
        injection h with h
        exact Or.inr ⟨_, h.symm⟩
      next db4 completed hcomp => simp at h

/-- The wallet a flow's insufficiency check reads: the system wallet for
topup and bonus, the user wallet for spend. -/
def flowSource (k : TxType) (sw uw : Wallet) : Wallet :=
  match k with
  | .spend => uw
  | _ => sw

/-- The `available` detail the flow reports: the raw stored balance for
topup and bonus, the float-parsed balance for spend (mirroring which
value each flow passes to `InsufficientFundsError`). -/
def flowAvailable (k : TxType) (sw uw : Wallet) : ℚ :=
  match k with
  | .spend => toF64 uw.balance
  | _ => sw.balance

/-- Claim C7 (as amended): with both wallets present, active and of one
asset type, a fresh flow raises InsufficientFunds — carrying
`{available, required}` — exactly when the **binary64 comparison**
`parseFloat(source.balance) < amount` holds (the source being the
system wallet for topup and bonus, the user wallet for spend), and in
that case nothing is written.  The comparison is float-coerced, not
exact fixed-point decimal: the counterexample exhibits a balance
exactly below the amount for which no InsufficientFunds is raised. -/
theorem insufficient_funds_float_check (k : TxType) (db : DBState) (a : FlowArgs)
    (sw uw : Wallet)
    (hmiss : ∀ key, a.idempotencyKey = some key → findByKey db key = none)
    (hnd : WalletIdsNodup db)
    (hswm : sw ∈ db.wallets) (hswi : sw.id = a.systemWalletId)
    (huwm : uw ∈ db.wallets) (huwi : uw.id = a.walletId)
    (hne : a.walletId ≠ a.systemWalletId)
    (h1 : sw.is_active = true) (h2 : uw.is_active = true)
    (hasset : sw.asset_type_id = uw.asset_type_id) :
    ((∃ avail req, (runFlow k db a).result = .error (.insufficientFunds avail req))
        ↔ toF64 (flowSource k sw uw).balance < a.amount) ∧
    (toF64 (flowSource k sw uw).balance < a.amount →
      (runFlow k db a).result = .error (.insufficientFunds (flowAvailable k sw uw) a.amount) ∧
      (runFlow k db a).db = db ∧ (runFlow k db a).ctl = [Ctl.beginTx, Ctl.rollbackTx]) := by
  cases k with
  | topup =>
    simp only [flowSource, flowAvailable]
    have hlock := lockWallets_ok_of_members hswm hswi huwm huwi (fun h => hne h.symm)
    have hfsw := find?_lockQuery hnd hswm hswi a.systemWalletId a.walletId (Or.inl rfl)
    have hfuw := find?_lockQuery hnd huwm huwi a.systemWalletId a.walletId (Or.inr rfl)
    have heval := topupMain_eval (a := a.toTopup) hlock hfsw hfuw
    have heval2 : flowMain .topup a db =
        (if toF64 sw.balance < a.amount then
          Except.error (.insufficientFunds sw.balance a.amount)
        else
          match insertTransaction db .topup a.walletId a.systemWalletId a.amount
              (some a.referenceId) a.idempotencyKey a.description a.metadata with
          | .error e => .error e
          | .ok (db1, txn) => settle db1 sw uw a.amount txn) := by
      show topupMain a.toTopup db = _
      rw [heval, if_neg (by simp [h1]), if_neg (by simp [h2]), if_neg (by simp [hasset])]
      rfl
    refine ⟨⟨?_, ?_⟩, ?_⟩
    · rintro ⟨avail, req, herr⟩
      by_contra hnlt
      have hb := ((withTransaction_spec db (flowBody .topup db a)).2.1 _
        (by rw [← runFlow_eq_withTransaction]; exact herr)).2.1
      rw [flowBody_miss hmiss db, heval2, if_neg hnlt] at hb
      cases hins : insertTransaction db .topup a.walletId a.systemWalletId a.amount
          (some a.referenceId) a.idempotencyKey a.description a.metadata with
      | error e =>
        obtain ⟨d2, rfl⟩ := insertTransaction_error hins
        simp only [hins] at hb
        simp at hb
      | ok p =>
        cases p with
        | mk db1 txn =>
          simp only [hins] at hb
          rcases settle_error hb with ⟨d2, hd⟩ | ⟨msg, hm2⟩
          · simp at hd
          · simp at hm2
    · intro hlt
      exact ⟨_, _, (runFlow_error_of_main hmiss (by rw [heval2, if_pos hlt])).1⟩
    · intro hlt
      exact runFlow_error_of_main hmiss (by rw [heval2, if_pos hlt])
  | bonus =>
    simp only [flowSource, flowAvailable]
    have hlock := lockWallets_ok_of_members hswm hswi huwm huwi (fun h => hne h.symm)
    have hfsw := find?_lockQuery hnd hswm hswi a.systemWalletId a.walletId (Or.inl rfl)
    have hfuw := find?_lockQuery hnd huwm huwi a.systemWalletId a.walletId (Or.inr rfl)
    have heval := bonusMain_eval (a := a.toBonus) hlock hfsw hfuw
    have heval2 : flowMain .bonus a db =
        (if toF64 sw.balance < a.amount then
          Except.error (.insufficientFunds sw.balance a.amount)
        else
          match insertTransaction db .bonus a.walletId a.systemWalletId a.amount
              none a.idempotencyKey (some (a.description.getD ("Bonus: " ++ a.reason)))
              (("reason", a.reason) :: a.metadata) with
          | .error e => .error e
          | .ok (db1, txn) => settle db1 sw uw a.amount txn) := by
      show bonusMain a.toBonus db = _
      rw [heval, if_neg (by simp [h1]), if_neg (by simp [h2]), if_neg (by simp [hasset])]
      rfl
    refine ⟨⟨?_, ?_⟩, ?_⟩
    · rintro ⟨avail, req, herr⟩
      by_contra hnlt
      have hb := ((withTransaction_spec db (flowBody .bonus db a)).2.1 _
        (by rw [← runFlow_eq_withTransaction]; exact herr)).2.1
      rw [flowBody_miss hmiss db, heval2, if_neg hnlt] at hb
      cases hins : insertTransaction db .bonus a.walletId a.systemWalletId a.amount
          none a.idempotencyKey (some (a.description.getD ("Bonus: " ++ a.reason)))
          (("reason", a.reason) :: a.metadata) with
      | error e =>
        obtain ⟨d2, rfl⟩ := insertTransaction_error hins
        simp only [hins] at hb
        simp at hb
      | ok p =>
        cases p with
        | mk db1 txn =>
          simp only [hins] at hb
          rcases settle_error hb with ⟨d2, hd⟩ | ⟨msg, hm2⟩
          · simp at hd
          · simp at hm2
    · intro hlt
      exact ⟨_, _, (runFlow_error_of_main hmiss (by rw [heval2, if_pos hlt])).1⟩
    · intro hlt
      exact runFlow_error_of_main hmiss (by rw [heval2, if_pos hlt])
  | spend =>
    simp only [flowSource, flowAvailable]
    have hlock := lockWallets_ok_of_members huwm huwi hswm hswi hne
    have hfuw := find?_lockQuery hnd huwm huwi a.walletId a.systemWalletId (Or.inl rfl)
    have hfsw := find?_lockQuery hnd hswm hswi a.walletId a.systemWalletId (Or.inr rfl)
    have heval := spendMain_eval (a := a.toSpend) hlock hfuw hfsw
    have heval2 : flowMain .spend a db =
        (if toF64 uw.balance < a.amount then
          Except.error (.insufficientFunds (toF64 uw.balance) a.amount)
        else
          match insertTransaction db .spend a.walletId a.systemWalletId a.amount
              none a.idempotencyKey (some (a.description.getD ("Purchase: " ++ a.serviceId)))
              (("serviceId", a.serviceId) :: a.metadata) with
          | .error e => .error e
          | .ok (db1, txn) => settle db1 uw sw a.amount txn) := by
      show spendMain a.toSpend db = _
      rw [heval, if_neg (by simp [h2]), if_neg (by simp [h1]),
        if_neg (by simp [hasset])]
      rfl
    refine ⟨⟨?_, ?_⟩, ?_⟩
    · rintro ⟨avail, req, herr⟩
      by_contra hnlt
      have hb := ((withTransaction_spec db (flowBody .spend db a)).2.1 _
        (by rw [← runFlow_eq_withTransaction]; exact herr)).2.1
      rw [flowBody_miss hmiss db, heval2, if_neg hnlt] at hb
      cases hins : insertTransaction db .spend a.walletId a.systemWalletId a.amount
          none a.idempotencyKey (some (a.description.getD ("Purchase: " ++ a.serviceId)))
          (("serviceId", a.serviceId) :: a.metadata) with
      | error e =>
        obtain ⟨d2, rfl⟩ := insertTransaction_error hins
        simp only [hins] at hb
        simp at hb
      | ok p =>
        cases p with
        | mk db1 txn =>
          simp only [hins] at hb
          rcases settle_error hb with ⟨d2, hd⟩ | ⟨msg, hm2⟩
          · simp at hd
          · simp at hm2
    · intro hlt
      exact ⟨_, _, (runFlow_error_of_main hmiss (by rw [heval2, if_pos hlt])).1⟩
    · intro hlt
      exact runFlow_error_of_main hmiss (by rw [heval2, if_pos hlt])

/-- A spend of 9999 from a wallet holding 500. -/
def overdraftArgs : FlowArgs :=
  { walletId := 2, systemWalletId := 1, amount := 9999, referenceId := "r"
    reason := "x", serviceId := "svc", description := none
    metadata := [], idempotencyKey := some "k2" }

/-- Witness for the insufficiency claim: the overdraft spend faults
with InsufficientFunds carrying available 500 and required 9999, and
writes nothing. -/
theorem insufficient_funds_float_check_witness :
    toF64 (flowSource .spend ⟨1, 7, 1000000, true⟩ ⟨2, 7, 500, true⟩).balance
      < overdraftArgs.amount ∧
    (runFlow .spend seedDB overdraftArgs).result
      = .error (.insufficientFunds
          (flowAvailable .spend ⟨1, 7, 1000000, true⟩ ⟨2, 7, 500, true⟩)
          overdraftArgs.amount) ∧
    (runFlow .spend seedDB overdraftArgs).db = seedDB := by
  have h := insufficient_funds_float_check .spend seedDB overdraftArgs
    ⟨1, 7, 1000000, true⟩ ⟨2, 7, 500, true⟩
    (fun key hk => by
      simp only [overdraftArgs] at hk
      injection hk with hh
      subst hh
      decide)
    (by decide) (by decide) (by decide) (by decide) (by decide) (by decide)
    (by decide) (by decide) (by decide)
  have hlt : toF64 (flowSource .spend ⟨1, 7, 1000000, true⟩ ⟨2, 7, 500, true⟩).balance
      < overdraftArgs.amount := by
    set_option maxRecDepth 16000 in decide
  exact ⟨hlt, (h.2 hlt).1, (h.2 hlt).2.1⟩

/-- A revenue wallet and a user wallet whose balance,
17592186044416.015624, is one micro-unit below the spend amount. -/
def floatDB : DBState :=
  { wallets := [⟨1, 7, 0, true⟩, ⟨2, 7, 17592186044416 + 15624/1000000, true⟩]
    transactions := []
    ledger_entries := []
    nextTxId := 10 }

/-- A spend of 17592186044416.015625 (an exactly binary64-representable
NUMERIC(20,6) amount). -/
def floatArgs : FlowArgs :=
  { walletId := 2, systemWalletId := 1, amount := 17592186044416 + 15625/1000000
    referenceId := "r", reason := "x", serviceId := "svc", description := none
    metadata := [], idempotencyKey := none }

/-- Counterexample to claim C7 as stated: in exact fixed-point decimal
the user's balance is strictly below the amount, so InsufficientFunds
should be raised with no writes — but `parseFloat` rounds the balance
up to the amount, the float comparison passes, the flow proceeds to the
debit, and the run ends in the datastore's balance constraint
(CONSTRAINT_VIOLATION), not InsufficientFunds. -/
theorem insufficient_funds_float_check_cex :
    ((17592186044416 : ℚ) + 15624/1000000 < 17592186044416 + 15625/1000000) ∧
    ¬ (toF64 ((17592186044416 : ℚ) + 15624/1000000)
        < (17592186044416 : ℚ) + 15625/1000000) ∧
    (runFlow .spend floatDB floatArgs).result = .error (.dbError .checkViolation) ∧
    errorResponse (.dbError .checkViolation) = (422, "CONSTRAINT_VIOLATION") := by
  set_option maxRecDepth 16000 in
  exact ⟨by decide, by decide, by decide, by decide⟩

/-! ## The idempotency-key race: unique violation is not converted -/

lemma insertTransaction_unique {db : DBState} {ty : TxType} {u s : Nat} {am : ℚ}
    {r d : Option String} {m : List (String × String)} {ko : Option String} {key : String}
    (hk : ko = some key)
    (h1 : db.transactions.any (fun t => t.idempotency_key = some key) = true) :
    insertTransaction db ty u s am r ko d m = .error (.dbError .uniqueViolation) := by
  unfold insertTransaction
  rw [hk]
  rw [if_pos (by exact h1)]

/-- Claim C4 (as amended): when a request races past the duplicate
pre-check — the pre-check reads a snapshot (`db0`) without the key
while the statements after the lock wait read the winner's committed
state (`db1`) — the loser's INSERT of the pending row raises the
idempotency-key unique violation (PG 23505).  The flow has **no**
handler for it: there is no re-read of the winner's row; the runner
rolls back and rethrows, and the global error handler serialises the
fault as a 409 CONFLICT response. -/
theorem race_unique_violation (k : TxType) (db0 db1 : DBState) (a : FlowArgs) (key : String)
    (sw uw : Wallet)
    (hkey : a.idempotencyKey = some key)
    (h0 : findByKey db0 key = none)
    (h1 : db1.transactions.any (fun t => t.idempotency_key = some key) = true)
    (hnd : WalletIdsNodup db1)
    (hswm : sw ∈ db1.wallets) (hswi : sw.id = a.systemWalletId)
    (huwm : uw ∈ db1.wallets) (huwi : uw.id = a.walletId)
    (hne : a.walletId ≠ a.systemWalletId)
    (hact1 : sw.is_active = true) (hact2 : uw.is_active = true)
    (hasset : sw.asset_type_id = uw.asset_type_id)
    (hfunds : ¬ toF64 (flowSource k sw uw).balance < a.amount) :
    (withTransaction db1 (flowBody k db0 a)).result = .error (.dbError .uniqueViolation) ∧
    (withTransaction db1 (flowBody k db0 a)).db = db1 ∧
    (withTransaction db1 (flowBody k db0 a)).ctl = [Ctl.beginTx, Ctl.rollbackTx] ∧
    errorResponse (.dbError .uniqueViolation) = (409, "CONFLICT") := by
  have hmiss0 : ∀ key', a.idempotencyKey = some key' → findByKey db0 key' = none := by
    intro key' hk'
    rw [hkey] at hk'
    injection hk' with hh
    subst hh
    exact h0
  have hbody : flowBody k db0 a db1 = flowMain k a db1 := flowBody_miss hmiss0 db1
  have hmainloser : flowMain k a db1 = .error (.dbError .uniqueViolation) := by
    cases k with
    | topup =>
      simp only [flowSource] at hfunds
      have hlock := lockWallets_ok_of_members hswm hswi huwm huwi (fun h => hne h.symm)
      have hfsw := find?_lockQuery hnd hswm hswi a.systemWalletId a.walletId (Or.inl rfl)
      have hfuw := find?_lockQuery hnd huwm huwi a.systemWalletId a.walletId (Or.inr rfl)
      have heval := topupMain_eval (a := a.toTopup) hlock hfsw hfuw
      have hfunds2 : ¬ toF64 sw.balance < a.toTopup.amount := hfunds
      have hins : insertTransaction db1 .topup a.toTopup.walletId a.toTopup.systemWalletId
          a.toTopup.amount (some a.toTopup.referenceId) a.toTopup.idempotencyKey
          a.toTopup.description a.toTopup.metadata = .error (.dbError .uniqueViolation) :=
        insertTransaction_unique (show a.toTopup.idempotencyKey = some key from hkey) h1
      show topupMain a.toTopup db1 = _
      rw [heval, if_neg (by simp [hact1]), if_neg (by simp [hact2]),
        if_neg (by simp [hasset]), if_neg hfunds2]
      simp only [hins]
    | bonus =>
      simp only [flowSource] at hfunds
      have hlock := lockWallets_ok_of_members hswm hswi huwm huwi (fun h => hne h.symm)
      have hfsw := find?_lockQuery hnd hswm hswi a.systemWalletId a.walletId (Or.inl rfl)
      have hfuw := find?_lockQuery hnd huwm huwi a.systemWalletId a.walletId (Or.inr rfl)
      have heval := bonusMain_eval (a := a.toBonus) hlock hfsw hfuw
      have hfunds2 : ¬ toF64 sw.balance < a.toBonus.amount := hfunds
      have hins : insertTransaction db1 .bonus a.toBonus.walletId a.toBonus.systemWalletId
          a.toBonus.amount none a.toBonus.idempotencyKey
          (some (a.toBonus.description.getD ("Bonus: " ++ a.toBonus.reason)))
          (("reason", a.toBonus.reason) :: a.toBonus.metadata)
          = .error (.dbError .uniqueViolation) :=
        insertTransaction_unique (show a.toBonus.idempotencyKey = some key from hkey) h1
      show bonusMain a.toBonus db1 = _
      rw [heval, if_neg (by simp [hact1]), if_neg (by simp [hact2]),
        if_neg (by simp [hasset]), if_neg hfunds2]
      simp only [hins]
    | spend =>
      simp only [flowSource] at hfunds
      have hlock := lockWallets_ok_of_members huwm huwi hswm hswi hne
      have hfuw := find?_lockQuery hnd huwm huwi a.walletId a.systemWalletId (Or.inl rfl)
      have hfsw := find?_lockQuery hnd hswm hswi a.walletId a.systemWalletId (Or.inr rfl)
      have heval := spendMain_eval (a := a.toSpend) hlock hfuw hfsw
      have hfunds2 : ¬ toF64 uw.balance < a.toSpend.amount := hfunds
      have hins : insertTransaction db1 .spend a.toSpend.walletId a.toSpend.systemWalletId
          a.toSpend.amount none a.toSpend.idempotencyKey
          (some (a.toSpend.description.getD ("Purchase: " ++ a.toSpend.serviceId)))
          (("serviceId", a.toSpend.serviceId) :: a.toSpend.metadata)
          = .error (.dbError .uniqueViolation) :=
        insertTransaction_unique (show a.toSpend.idempotencyKey = some key from hkey) h1
      show spendMain a.toSpend db1 = _
      rw [heval, if_neg (by simp [hact2]), if_neg (by simp [hact1]),
        if_neg (by simp [hasset]), if_neg hfunds2]
      simp only [hins]
  have hout : withTransaction db1 (flowBody k db0 a) =
      ⟨db1, .error (.dbError .uniqueViolation), [Ctl.beginTx, Ctl.rollbackTx], true⟩ := by
    unfold withTransaction
    simp only [hbody, hmainloser]
  exact ⟨by rw [hout], by rw [hout], by rw [hout], rfl⟩

/-- The winner's committed transaction row for key k1. -/
def winnerRow : TxnRow :=
  { id := 10, type := .topup, status := .completed, user_wallet_id := 2
    system_wallet_id := 1, amount := 100, reference_id := some "stripe-111"
    idempotency_key := some "k1", description := none, metadata := [] }

/-- `seedDB` after the winner committed. -/
def racedDB : DBState :=
  { wallets := [⟨1, 7, 1000000, true⟩, ⟨2, 7, 500, true⟩]
    transactions := [winnerRow]
    ledger_entries := []
    nextTxId := 11 }

/-- Counterexample to claim C4 as stated: the loser of the race — its
duplicate pre-check read `seedDB` (no key) while the rest of its
statements read `racedDB` (winner committed) — ends in an unhandled
unique violation mapped to 409 CONFLICT; it is not converted into a
re-read of the winner's transaction. -/
theorem race_unique_violation_cex :
    (withTransaction racedDB (flowBody .topup seedDB seedArgs)).result
      = .error (.dbError .uniqueViolation) ∧
    (withTransaction racedDB (flowBody .topup seedDB seedArgs)).ctl
      = [Ctl.beginTx, Ctl.rollbackTx] ∧
    errorResponse (.dbError .uniqueViolation) = (409, "CONFLICT") := by
  exact ⟨by decide, by decide, by decide⟩

/-- A spend of 60 from the user wallet, re-using key k1. -/
def spendArgsK1 : FlowArgs :=
  { walletId := 2, systemWalletId := 1, amount := 60, referenceId := "r"
    reason := "x", serviceId := "svc", description := none
    metadata := [], idempotencyKey := some "k1" }

/-- Witness for the amended race claim at a concrete race. -/
theorem race_unique_violation_witness :
    (withTransaction racedDB (flowBody .spend seedDB spendArgsK1)).result
      = .error (.dbError .uniqueViolation) ∧
    (withTransaction racedDB (flowBody .spend seedDB spendArgsK1)).db = racedDB ∧
    errorResponse (.dbError .uniqueViolation) = (409, "CONFLICT") := by
  have h := race_unique_violation .spend seedDB racedDB spendArgsK1 "k1"
    ⟨1, 7, 1000000, true⟩ ⟨2, 7, 500, true⟩
    (by decide) (by decide) (by decide) (by decide) (by decide) (by decide)
    (by decide) (by decide) (by decide) (by decide) (by decide) (by decide)
    (by set_option maxRecDepth 16000 in decide)
  exact ⟨h.1, h.2.1, h.2.2.2⟩

/-! ## Canonical lock order -/

instance : IsTotal Wallet (fun a b => a.id ≤ b.id) :=
  ⟨fun a b => Nat.le_total a.id b.id⟩

instance : IsTrans Wallet (fun a b => a.id ≤ b.id) :=
  ⟨fun _ _ _ hab hbc => Nat.le_trans hab hbc⟩

lemma lockQuery_sorted (db : DBState) (x y : Nat) :
    List.Sorted (fun a b : Wallet => a.id ≤ b.id) (lockQuery db x y) := by
  unfold lockQuery
  exact List.sorted_insertionSort _ _

/-- Claim C8: `sortIds` is symmetric and the single lock query orders
its result ascending by id, so the sequence in which any transaction
acquires its row locks is ascending — hence two transactions cannot
each hold a row the other is waiting for unless the two rows carry the
same id: no circular wait (and so no deadlock) can form on wallet
rows.  The last conjunct is the no-cycle statement: if transaction 1
acquires row `w` strictly before row w2 and transaction 2 acquires w2
strictly before `w`, the two rows have equal ids. -/
theorem lock_order_canonical :
    (∀ x y : Nat, sortIds x y = sortIds y x) ∧
    (∀ (db : DBState) (x y : Nat), lockQuery db x y = lockQuery db y x) ∧
    (∀ (db : DBState) (x y : Nat),
      List.Sorted (fun a b : Wallet => a.id ≤ b.id) (lockQuery db x y)) ∧
    (∀ (dbA dbB : DBState) (x y v w : Nat)
      (i j : Fin (lockQuery dbA x y).length) (p q : Fin (lockQuery dbB v w).length),
      i < j → p < q →
      (lockQuery dbA x y).get i = (lockQuery dbB v w).get q →
      (lockQuery dbA x y).get j = (lockQuery dbB v w).get p →
      ((lockQuery dbA x y).get i).id = ((lockQuery dbA x y).get j).id) := by
  refine ⟨sortIds_comm, ?_, lockQuery_sorted, ?_⟩
  · intro db x y
    unfold lockQuery
    congr 1
    apply List.filter_congr
    intro w _
    exact decide_eq_decide.mpr or_comm
  · intro dbA dbB x y v w i j p q hij hpq heq1 heq2
    have h1 : ((lockQuery dbA x y).get i).id ≤ ((lockQuery dbA x y).get j).id :=
      (lockQuery_sorted dbA x y).rel_get_of_lt hij
    have h2 : ((lockQuery dbB v w).get p).id ≤ ((lockQuery dbB v w).get q).id :=
      (lockQuery_sorted dbB v w).rel_get_of_lt hpq
    rw [← heq2, ← heq1] at h2
    exact Nat.le_antisymm h1 h2

/-- Two wallet rows sharing id 5 (distinguished by asset type), listed
in opposite orders in two states. -/
def lockDB1 : DBState :=
  { wallets := [⟨5, 0, 0, true⟩, ⟨5, 1, 0, true⟩]
    transactions := [], ledger_entries := [], nextTxId := 0 }

def lockDB2 : DBState :=
  { wallets := [⟨5, 1, 0, true⟩, ⟨5, 0, 0, true⟩]
    transactions := [], ledger_entries := [], nextTxId := 0 }

/-- Witness for the lock-order claim: `sortIds` symmetry at 8,3 and the
no-cycle conjunct instantiated at two concrete lock sequences (the only
way its hypotheses can hold is with equal row ids, which is what it
concludes). -/
theorem lock_order_canonical_witness :
    sortIds 8 3 = sortIds 3 8 ∧
    ((lockQuery lockDB1 5 5).get ⟨0, by decide⟩).id
      = ((lockQuery lockDB1 5 5).get ⟨1, by decide⟩).id := by
  refine ⟨lock_order_canonical.1 8 3, ?_⟩
  exact lock_order_canonical.2.2.2 lockDB1 lockDB2 5 5 5 5
    ⟨0, by decide⟩ ⟨1, by decide⟩ ⟨0, by decide⟩ ⟨1, by decide⟩
    (by decide) (by decide) (by decide) (by decide)

/-! ## The idempotency boundary -/

/-- Claim C9: with an `Idempotency-Key`, a stored unexpired `(key,
path)` record short-circuits the request — the cached status and body
come back, `X-Idempotency-Replayed` is set, and the handler never
runs; on a miss the handler runs and its response is stored only when
its status is below 500, the insert leaving an existing `(key, path)`
row unchanged; a response with status 500 or above is never cached
(the store after the request is unchanged). -/
theorem idempotency_boundary_spec {β : Type} (s : IdemStore β) (now ttl : ℚ)
    (key path : String) (handler : Nat × β) :
    (∀ st b, idemLookup s now key path = some (st, b) →
      idempotencyBoundary s now ttl (some key) path handler
        = ⟨s, st, b, true, false⟩) ∧
    (idemLookup s now key path = none → handler.1 < 500 →
      idempotencyBoundary s now ttl (some key) path handler
        = ⟨idemInsert s now ttl key path handler.1 handler.2,
            handler.1, handler.2, false, true⟩) ∧
    (idemLookup s now key path = none → 500 ≤ handler.1 →
      idempotencyBoundary s now ttl (some key) path handler
        = ⟨s, handler.1, handler.2, false, true⟩) ∧
    (s.records.any (fun r => r.key = key ∧ r.request_path = path) = true →
      idemInsert s now ttl key path handler.1 handler.2 = s) ∧
    (500 ≤ handler.1 →
      (idempotencyBoundary s now ttl (some key) path handler).store = s) := by
  refine ⟨?_, ?_, ?_, ?_, ?_⟩
  · intro st b h
    unfold idempotencyBoundary
    simp only [h]
  · intro h hlt
    unfold idempotencyBoundary
    simp only [h]
    rw [if_pos hlt]
  · intro h hge
    unfold idempotencyBoundary
    simp only [h]
    rw [if_neg (by omega)]
  · intro h
    unfold idemInsert
    rw [if_pos h]
  · intro hge
    unfold idempotencyBoundary
    cases hl : idemLookup s now key path with
    | some c =>
      cases c with
      | mk st b => simp only [hl]
    | none =>
      simp only [hl]
      rw [if_neg (by omega)]

/-- A store holding one unexpired cached response for key k on the
topup path (status 201, body 7, expiring at time 100). -/
def cachedStore : IdemStore Nat :=
  ⟨[⟨"k", "/api/v1/transactions/topup", 201, 7, 100⟩]⟩

/-- Witness for the boundary claim: at time 50 the cached 201 replays
without running the handler, and on an empty store a 503 response is
not cached. -/
theorem idempotency_boundary_spec_witness :
    idempotencyBoundary cachedStore 50 24 (some "k") "/api/v1/transactions/topup" (201, 9)
      = ⟨cachedStore, 201, 7, true, false⟩ ∧
    (idempotencyBoundary (⟨[]⟩ : IdemStore Nat) 50 24 (some "k")
      "/api/v1/transactions/topup" (503, 9)).store = (⟨[]⟩ : IdemStore Nat) := by
  constructor
  · exact (idempotency_boundary_spec cachedStore 50 24 "k" "/api/v1/transactions/topup"
      (201, 9)).1 201 7 (by decide)
  · exact (idempotency_boundary_spec (⟨[]⟩ : IdemStore Nat) 50 24 "k"
      "/api/v1/transactions/topup" (503, 9)).2.2.2.2 (by omega)
